import Mathlib

/-
Shallow embedding of the tabular-file ingestion and validation pipeline of
the DataAnalystAssistant repository (src/src/data_loader.py, the DataLoader
class, and the exception-to-status mapping of src/src/main.py).

Conventions of the embedding:
  - A file on disk is an FSFile: a path, an existence flag, the raw byte
    content, and (for spreadsheet files) the result the external spreadsheet
    loader would produce for it.
  - Python exceptions become the PyExc sum type; raising becomes returning
    Except.error.  Mutation of the DataLoader object becomes explicit state
    passing of the Loader structure.
  - Text is List Char / String; bytes are Nat (values below 256).
  - External collaborators (the pandas table loader, the Python codecs) are
    modelled from the spec where noted in the corresponding doc comments.
-/

/-- Decidable equality for Except, used to evaluate concrete runs. -/
instance {ε α : Type} [DecidableEq ε] [DecidableEq α] : DecidableEq (Except ε α) := fun a b =>
  match a, b with
  | Except.ok x, Except.ok y =>
    if h : x = y then isTrue (by rw [h]) else isFalse (by intro hc; cases hc; exact h rfl)
  | Except.error x, Except.error y =>
    if h : x = y then isTrue (by rw [h]) else isFalse (by intro hc; cases hc; exact h rfl)
  | Except.ok _, Except.error _ => isFalse (by intro hc; cases hc)
  | Except.error _, Except.ok _ => isFalse (by intro hc; cases hc)

/-- The runtime kind of a cell value (the result of Python type(x) as far as
the mixed-datatype scan distinguishes values). -/
inductive Kind where
  | kInt
  | kFloat
  | kBool
  | kStr
deriving DecidableEq, Repr

/-- Cell values of a loaded table.  Float payloads are irrelevant to every
claim (only the kind of a cell is ever inspected), so vFloat carries none. -/
inductive PyVal where
  | vInt (n : Int)
  | vFloat
  | vBool (b : Bool)
  | vStr (s : String)
  | vNone
deriving DecidableEq, Repr

/-- The Loaded Table: an explicit row count (pandas keeps the row index even
when every column is dropped) and an ordered list of named columns. -/
structure Table where
  nrows : Nat
  cols : List (String × List PyVal)
deriving DecidableEq, Repr

/-- Result of the external spreadsheet loader for a given file: either the
loaded table (with header names as the loader produced them, including its
auto-deduplication suffixes) or the message of the exception it raised. -/
inductive ExcelRead where
  | ok (t : Table)
  | err (msg : String)
deriving DecidableEq, Repr

/-- A file as the loader observes it through the file system. -/
structure FSFile where
  path : String
  fileExists : Bool
  bytes : List Nat
  excel : ExcelRead
deriving DecidableEq, Repr

/-- File size as returned by os.path.getsize. -/
def fileSize (f : FSFile) : Nat := f.bytes.length

/-- The Python exceptions escaping DataLoader.validate_and_load, as caught by
the HTTP shell in src/src/main.py.  otherError stands for any unanticipated
internal fault. -/
inductive PyExc where
  | fileNotFoundError (msg : String)
  | valueError (msg : String)
  | duplicateColumnError (msg : String)
  | otherError (msg : String)
deriving DecidableEq, Repr

/-- The message carried by an exception (str(e) in Python). -/
def PyExc.msg : PyExc → String
  | .fileNotFoundError m => m
  | .valueError m => m
  | .duplicateColumnError m => m
  | .otherError m => m

/-- The mutable state of a DataLoader instance (DataLoader.__init__). -/
structure Loader where
  file : FSFile
  maxSizeMb : Nat
  df : Option Table
  warnings : List String
deriving DecidableEq, Repr

/-- DataLoader(file_path, max_size_mb): df is None and warnings empty. -/
def initLoader (f : FSFile) (mb : Nat) : Loader :=
  { file := f, maxSizeMb := mb, df := none, warnings := [] }

/-- The metadata record returned by validate_and_load. -/
structure Metadata where
  file_name : String
  size_readable : String
  rows : Nat
  columns : Nat
  column_names : List String
  warnings : List String
deriving DecidableEq, Repr

/- ---------------- string utilities ---------------- -/

/-- Split a character list at every occurrence of sep (Python str.split with
a one-character separator; also the field splitting csv.reader performs on
quote-free lines). -/
def splitListOn (sep : Char) : List Char → List (List Char)
  | [] => [[]]
  | c :: cs =>
    let r := splitListOn sep cs
    if c = sep then [] :: r
    else
      match r with
      | [] => [[c]]
      | g :: gs => (c :: g) :: gs

/-- String version of splitListOn. -/
def strSplit (s : String) (sep : Char) : List String :=
  (splitListOn sep s.data).map String.mk

/-- ASCII lower-casing of one character (str.lower; the repository only ever
lower-cases file extensions, which are ASCII). -/
def lowerChar (c : Char) : Char :=
  if 65 ≤ c.toNat ∧ c.toNat ≤ 90 then Char.ofNat (c.toNat + 32) else c

/-- ASCII lower-casing of a string. -/
def lowerStr (s : String) : String := String.mk (s.data.map lowerChar)

/-- Decimal digit test. -/
def isDigitCh (c : Char) : Bool := 48 ≤ c.toNat && c.toNat ≤ 57

/-- The character of a decimal digit. -/
def digitChar (n : Nat) : Char := Char.ofNat (48 + n % 10)

/-- Decimal digit list of a natural number (fuel-structured; fuel n+1 is
always enough since the value shrinks by a factor of ten each step). -/
def natStrCore : Nat → Nat → List Char
  | 0, _ => []
  | fuel + 1, n => if n < 10 then [digitChar n] else natStrCore fuel (n / 10) ++ [digitChar (n % 10)]

/-- Decimal rendering of a natural number (str(n) in Python). -/
def natStr (n : Nat) : String := String.mk (natStrCore (n + 1) n)

/-- file_path.split(sep)[-1].lower() with sep the dot: the extension used for
format dispatch in DataLoader._read_file. -/
def extOf (p : String) : String := lowerStr ((strSplit p '.').getLastD p)

/-- os.path.basename (split on the path separator, last component). -/
def basename (p : String) : String := (strSplit p '/').getLastD p

/- ---------------- duplicate-name machinery ---------------- -/

/-- The auto-suffix pattern: the regex .*\.\d+$ used in DataLoader._read_csv
and _read_excel (a name ending in a dot followed by one or more digits;
modelled for newline-free names, the only ones the pipeline produces). -/
def matchesSuffix (s : String) : Bool :=
  let r := s.data.reverse
  !(r.takeWhile isDigitCh).isEmpty && ((r.dropWhile isDigitCh).head? == some '.')

/-- Modelled from the spec: the external table loader (pandas) is missing
from src/ and the spec states that it auto-disambiguates repeated header
names by appending a positional suffix, the second occurrence of a becoming
a.1, with the first occurrence left unsuffixed.  mangleGo seen rest renames
rest given the multiset seen of raw names already processed. -/
def mangleGo : List String → List String → List String
  | _, [] => []
  | seen, n :: rest =>
    (if seen.count n = 0 then n else n ++ "." ++ natStr (seen.count n)) :: mangleGo (n :: seen) rest

/-- Modelled from the spec: header deduplication of the external table
loader (see mangleGo). -/
def mangle (names : List String) : List String := mangleGo [] names

/-- Drop every column whose name matches the auto-suffix pattern
(df.loc[:, ~df.columns.str.match(r".*\.\d+$")]; the row index, hence the row
count, is kept). -/
def dropSuffixCols (t : Table) : Table :=
  { nrows := t.nrows, cols := t.cols.filter (fun c => !matchesSuffix c.1) }

/- ---------------- CSV text parsing ---------------- -/

/-- Fields of one quote-free CSV line. -/
def fieldsOf (line : String) : List String := strSplit line ','

/-- The non-blank lines of the decoded file (pandas skips blank lines). -/
def splitLines (text : String) : List String :=
  (strSplit text '\n').filter (fun l => l != "")

/-- Outcomes of the raw-header read csv.reader performs in
DataLoader._read_csv: StopIteration on empty input, the csv module error
line contains NUL when the line holds a NUL character (an exception that is
neither a ValueError nor a DuplicateColumnError), or the tokens of the
line. -/
inductive RawHeader where
  | empty
  | nul
  | tokens (hdr : List String)
deriving DecidableEq, Repr

/-- The raw header as csv.reader yields it in DataLoader._read_csv: the
first line of the decoded text, split on the delimiter; empty when the file
decodes to the empty string (StopIteration), nul when the line contains a
NUL character (which the csv module rejects), and the empty token list when
the first line is empty. -/
def rawHeader (text : String) : RawHeader :=
  if text == "" then RawHeader.empty
  else
    let first := (strSplit text '\n').headD ""
    if first.data.any (fun c => c == Char.ofNat 0) then RawHeader.nul
    else if first == "" then RawHeader.tokens [] else RawHeader.tokens (fieldsOf first)

/-- A field consisting solely of decimal digits (the fragment of the pandas
numeric inference the claims exercise; signs, floats and exponents are
abstracted to text). -/
def isIntStr (s : String) : Bool := !s.data.isEmpty && s.data.all isDigitCh

/-- Value of a digit string. -/
def parseNat (s : String) : Nat := s.data.foldl (fun a c => a * 10 + (c.toNat - 48)) 0

/-- Whether every present, non-empty cell of the column is an integer
literal, in which case pandas stores the column numerically. -/
def colAllInt (cells : List (Option String)) : Bool :=
  cells.all fun c =>
    match c with
    | none => true
    | some s => s == "" || isIntStr s

/-- One typed cell: absent and empty fields are missing (NaN). -/
def typeCell (asInt : Bool) (c : Option String) : PyVal :=
  match c with
  | none => PyVal.vNone
  | some s =>
    if s == "" then PyVal.vNone
    else if asInt then PyVal.vInt (Int.ofNat (parseNat s))
    else PyVal.vStr s

/-- Modelled from the spec: pd.read_csv, the external table loader, is
missing from src/.  Per the spec it parses the decoded text into a
rectangular table: first non-blank line is the header (deduplicated with the
positional-suffix scheme), remaining non-blank lines are rows, short rows
are padded with missing values, a row wider than the header is a parse
error, and an input with no lines at all is the empty-data error. -/
def pdReadCsv (text : String) : Except String Table :=
  match splitLines text with
  | [] => Except.error "No columns to parse from file"
  | hline :: rest =>
    let hdr := mangle (fieldsOf hline)
    let ncols := hdr.length
    let rows := rest.map fieldsOf
    if rows.any (fun r => ncols < r.length) then Except.error "Error tokenizing data."
    else
      let colCells := (List.range ncols).map fun j =>
        let raw := rows.map fun r => r.get? j
        raw.map (typeCell (colAllInt raw))
      Except.ok { nrows := rows.length, cols := hdr.zip colCells }

/- ---------------- character encodings ---------------- -/

/-- The candidate encodings tried by DataLoader._read_csv, in order. -/
inductive Enc where
  | utf8
  | latin1
  | cp1252
  | utf16
deriving DecidableEq, Repr

/-- The ordered list ["utf-8", "latin1", "cp1252", "utf-16"]. -/
def encodings : List Enc := [Enc.utf8, Enc.latin1, Enc.cp1252, Enc.utf16]

/-- Continuation byte test for UTF-8. -/
def isCont (b : Nat) : Bool := 128 ≤ b && b < 192

/-- Modelled from the spec: the Python UTF-8 codec (external).  Standard
UTF-8 decoding with rejection of stray continuation bytes, overlong forms,
surrogates and out-of-range sequences.  Fuel-structured on the byte count. -/
def utf8DecodeAux : Nat → List Nat → Option (List Char)
  | _, [] => some []
  | 0, _ :: _ => none
  | fuel + 1, b :: bs =>
    if b < 128 then (utf8DecodeAux fuel bs).map (fun l => Char.ofNat b :: l)
    else if b < 194 then none
    else if b < 224 then
      match bs with
      | b1 :: bs1 =>
        if isCont b1 then
          (utf8DecodeAux fuel bs1).map (fun l => Char.ofNat ((b - 192) * 64 + (b1 - 128)) :: l)
        else none
      | [] => none
    else if b < 240 then
      match bs with
      | b1 :: b2 :: bs2 =>
        if isCont b1 && isCont b2 && (b != 224 || 160 ≤ b1) && (b != 237 || b1 < 160) then
          (utf8DecodeAux fuel bs2).map
            (fun l => Char.ofNat ((b - 224) * 4096 + (b1 - 128) * 64 + (b2 - 128)) :: l)
        else none
      | _ => none
    else if b < 245 then
      match bs with
      | b1 :: b2 :: b3 :: bs3 =>
        if isCont b1 && isCont b2 && isCont b3 && (b != 240 || 144 ≤ b1) && (b != 244 || b1 < 144) then
          (utf8DecodeAux fuel bs3).map
            (fun l =>
              Char.ofNat ((b - 240) * 262144 + (b1 - 128) * 4096 + (b2 - 128) * 64 + (b3 - 128)) :: l)
        else none
      | _ => none
    else none

/-- UTF-8 decoding of a byte list. -/
def utf8Decode (bs : List Nat) : Option (List Char) := utf8DecodeAux bs.length bs

/-- Modelled from the spec: the Python latin-1 codec (external); it decodes
every byte to the character of the same code point and never fails. -/
def latin1Decode (bs : List Nat) : List Char := bs.map fun b => Char.ofNat (b % 256)

/-- Option-valued map over a list (used for the partial codecs). -/
def optMap (f : α → Option β) : List α → Option (List β)
  | [] => some []
  | a :: l =>
    match f a with
    | none => none
    | some b => (optMap f l).map (fun r => b :: r)

/-- The 0x80-0x9F block of Windows-1252 (byte, code point); the five absent
bytes are undefined in that code page. -/
def cp1252Table : List (Nat × Nat) :=
  [(128, 8364), (130, 8218), (131, 402), (132, 8222), (133, 8230), (134, 8224),
   (135, 8225), (136, 710), (137, 8240), (138, 352), (139, 8249), (140, 338),
   (142, 381), (145, 8216), (146, 8217), (147, 8220), (148, 8221), (149, 8226),
   (150, 8211), (151, 8212), (152, 732), (153, 8482), (154, 353), (155, 8250),
   (156, 339), (158, 382)]

/-- Modelled from the spec: the Python cp1252 codec (external), decoding
side.  Identity outside 0x80-0x9F, table lookup inside, failure on the five
undefined bytes. -/
def cp1252Char (b : Nat) : Option Char :=
  if b < 128 then some (Char.ofNat b)
  else if 160 ≤ b ∧ b < 256 then some (Char.ofNat b)
  else
    match cp1252Table.find? (fun p => p.1 == b) with
    | some p => some (Char.ofNat p.2)
    | none => none

/-- cp1252 decoding of a byte list. -/
def cp1252Decode (bs : List Nat) : Option (List Char) := optMap cp1252Char bs

/-- Little-endian 16-bit code units of a byte list (fails on odd length). -/
def utf16Units : List Nat → Option (List Nat)
  | [] => some []
  | [_] => none
  | lo :: hi :: rest => (utf16Units rest).map (fun us => ((lo % 256) + 256 * (hi % 256)) :: us)

/-- Big-endian 16-bit code units of a byte list. -/
def utf16UnitsBE : List Nat → Option (List Nat)
  | [] => some []
  | [_] => none
  | hi :: lo :: rest => (utf16UnitsBE rest).map (fun us => ((lo % 256) + 256 * (hi % 256)) :: us)

/-- Combine UTF-16 code units into characters (surrogate pairs; lone
surrogates fail).  Fuel-structured on the unit count. -/
def utf16Combine : Nat → List Nat → Option (List Char)
  | _, [] => some []
  | 0, _ :: _ => none
  | fuel + 1, u :: us =>
    if u < 55296 ∨ 57344 ≤ u then (utf16Combine fuel us).map (fun l => Char.ofNat u :: l)
    else if u < 56320 then
      match us with
      | lo :: us1 =>
        if 56320 ≤ lo ∧ lo < 57344 then
          (utf16Combine fuel us1).map
            (fun l => Char.ofNat (65536 + (u - 55296) * 1024 + (lo - 56320)) :: l)
        else none
      | [] => none
    else none

/-- Modelled from the spec: the Python utf-16 codec (external), decoding
side.  Honours a byte-order mark and defaults to little-endian without one. -/
def utf16Decode (bs : List Nat) : Option (List Char) :=
  match bs with
  | b0 :: b1 :: rest =>
    if b0 = 255 ∧ b1 = 254 then (utf16Units rest).bind (utf16Combine rest.length)
    else if b0 = 254 ∧ b1 = 255 then (utf16UnitsBE rest).bind (utf16Combine rest.length)
    else (utf16Units (b0 :: b1 :: rest)).bind (utf16Combine (b0 :: b1 :: rest).length)
  | _ => (utf16Units bs).bind (utf16Combine bs.length)

/-- Decoding dispatch over the candidate encodings. -/
def decodeBytes : Enc → List Nat → Option (List Char)
  | Enc.utf8, bs => utf8Decode bs
  | Enc.latin1, bs => some (latin1Decode bs)
  | Enc.cp1252, bs => cp1252Decode bs
  | Enc.utf16, bs => utf16Decode bs

/-- UTF-8 encoding of one character. -/
def utf8EncodeChar (c : Char) : List Nat :=
  let n := c.toNat
  if n < 128 then [n]
  else if n < 2048 then [192 + n / 64, 128 + n % 64]
  else if n < 65536 then [224 + n / 4096, 128 + n / 64 % 64, 128 + n % 64]
  else [240 + n / 262144, 128 + n / 4096 % 64, 128 + n / 64 % 64, 128 + n % 64]

/-- UTF-8 encoding of a string (writing side of the round-trip claims). -/
def utf8Encode (s : String) : List Nat := (s.data.map utf8EncodeChar).foldr (· ++ ·) []

/-- latin-1 encoding of one character (fails above U+00FF). -/
def latin1EncodeChar (c : Char) : Option Nat :=
  if c.toNat < 256 then some c.toNat else none

/-- cp1252 encoding of one character. -/
def cp1252EncodeChar (c : Char) : Option Nat :=
  let n := c.toNat
  if n < 128 then some n
  else if 160 ≤ n ∧ n < 256 then some n
  else
    match cp1252Table.find? (fun p => p.2 == n) with
    | some p => some p.1
    | none => none

/-- UTF-16 (little-endian) code-unit bytes of one character. -/
def utf16EncodeChar (c : Char) : List Nat :=
  let n := c.toNat
  if n < 65536 then [n % 256, n / 256]
  else
    let m := n - 65536
    let hi := 55296 + m / 1024
    let lo := 56320 + m % 1024
    [hi % 256, hi / 256, lo % 256, lo / 256]

/-- Python utf-16 encoding: a little-endian byte-order mark, then the units. -/
def utf16Encode (s : String) : List Nat :=
  255 :: 254 :: (s.data.map utf16EncodeChar).foldr (· ++ ·) []

/-- Encoding dispatch (the writer producing the bytes of the uploaded file). -/
def encodeStr : Enc → String → Option (List Nat)
  | Enc.utf8, s => some (utf8Encode s)
  | Enc.latin1, s => optMap latin1EncodeChar s.data
  | Enc.cp1252, s => optMap cp1252EncodeChar s.data
  | Enc.utf16, s => some (utf16Encode s)

/- ---------------- the DataLoader methods ---------------- -/

/-- DataLoader._basic_validation: existence, non-zero size, size ceiling. -/
def basicValidation (L : Loader) : Except PyExc Unit :=
  if !L.file.fileExists then
    Except.error (PyExc.fileNotFoundError ("File not found: " ++ L.file.path))
  else if fileSize L.file = 0 then Except.error (PyExc.valueError "File is empty.")
  else if L.maxSizeMb * 1024 * 1024 < fileSize L.file then
    Except.error
      (PyExc.valueError ("File too large. Limit is " ++ natStr L.maxSizeMb ++ "MB."))
  else Except.ok ()

/-- The raw-header duplicate check of DataLoader._read_csv: only performed
under the check policy; a missing first line is the StopIteration turned
into the no-header ValueError; a repeated name (list length differing from
set size) is the DuplicateColumnError. -/
def headerCheck (action : String) (text : String) : Except PyExc Unit :=
  if action = "check" then
    match rawHeader text with
    | RawHeader.empty => Except.error (PyExc.valueError "File is empty (no header).")
    | RawHeader.nul => Except.error (PyExc.otherError "line contains NUL")
    | RawHeader.tokens hdr =>
      if hdr.dedup.length ≠ hdr.length then
        Except.error (PyExc.duplicateColumnError "Duplicate column names detected.")
      else Except.ok ()
  else Except.ok ()

/-- DataLoader._read_csv.  One iteration per candidate encoding; the
decoding is modelled at whole-file granularity (Python decodes the header
line first and the rest inside pd.read_csv, under the same encoding).  A
UnicodeDecodeError moves to the next encoding; a DuplicateColumnError is
re-raised at once; any other error is wrapped and raised only when the
current encoding is the last one, and is otherwise swallowed by the loop. -/
def readCsvLoop (action : String) (bytes : List Nat) : List Enc → Except PyExc Table
  | [] =>
    Except.error (PyExc.valueError "Encoding error. Could not decode file with common encodings.")
  | e :: rest =>
    match decodeBytes e bytes with
    | none => readCsvLoop action bytes rest
    | some cs =>
      match headerCheck action (String.mk cs) with
      | Except.error (PyExc.duplicateColumnError m) =>
        Except.error (PyExc.duplicateColumnError m)
      | Except.error e1 =>
        if rest.isEmpty then
          Except.error (PyExc.valueError ("Error reading CSV: " ++ e1.msg))
        else readCsvLoop action bytes rest
      | Except.ok () =>
        match pdReadCsv (String.mk cs) with
        | Except.error m =>
          if rest.isEmpty then Except.error (PyExc.valueError ("Error reading CSV: " ++ m))
          else readCsvLoop action bytes rest
        | Except.ok t => Except.ok (if action = "keep_first" then dropSuffixCols t else t)

/-- The CSV arm of DataLoader._read_file: self.df is assigned only when the
read loop succeeds. -/
def csvBranch (L : Loader) (action : String) : Except PyExc Unit × Loader :=
  match readCsvLoop action L.file.bytes encodings with
  | Except.ok t => (Except.ok (), { L with df := some t })
  | Except.error e => (Except.error e, L)

/-- The spreadsheet arm (DataLoader._read_excel): self.df is assigned as
soon as the sheet loads, before the duplicate check, so it stays assigned
when DuplicateColumnError is raised. -/
def excelBranch (L : Loader) (action : String) : Except PyExc Unit × Loader :=
  match L.file.excel with
  | ExcelRead.err m => (Except.error (PyExc.valueError ("Error reading Excel: " ++ m)), L)
  | ExcelRead.ok t =>
    if action = "check" ∧ t.cols.any (fun c => matchesSuffix c.1) then
      (Except.error (PyExc.duplicateColumnError "Duplicate column names detected."),
       { L with df := some t })
    else if action = "keep_first" then (Except.ok (), { L with df := some (dropSuffixCols t) })
    else (Except.ok (), { L with df := some t })

/-- DataLoader._read_file: extension dispatch over the two readers. -/
def readFileSt (L : Loader) (action : String) : Except PyExc Unit × Loader :=
  let ext := extOf L.file.path
  if ext = "csv" then csvBranch L action
  else if ext = "xlsx" ∨ ext = "xls" then excelBranch L action
  else (Except.error (PyExc.valueError "Unsupported file format. Use CSV or Excel."), L)

/-- The quote character used in the mixed-datatype warning text. -/
def sqch : String := String.mk [Char.ofNat 39]

/-- The warning message for one mixed-type column. -/
def mixedMsg (c : String) : String :=
  "Column " ++ sqch ++ c ++ sqch ++ " has mixed datatypes (e.g., Number and String)."

/-- The Python type of a non-missing cell; missing cells have none. -/
def kindOf : PyVal → Option Kind
  | PyVal.vInt _ => some Kind.kInt
  | PyVal.vFloat => some Kind.kFloat
  | PyVal.vBool _ => some Kind.kBool
  | PyVal.vStr _ => some Kind.kStr
  | PyVal.vNone => none

/-- The distinct kinds among the non-missing cells of a column
(df[col].dropna().apply(type).unique()). -/
def colKinds (cells : List PyVal) : List Kind := (cells.filterMap kindOf).dedup

/-- Modelled from the spec: the dtype inference of the external table loader
is missing from src/; per the spec a column is of the freeform/text storage
kind (dtype object) exactly when its non-missing cells include textual
values, as opposed to a column the reader inferred as uniformly numeric or
boolean. -/
def isObjCol (cells : List PyVal) : Bool := (cells.filterMap kindOf).any (· == Kind.kStr)

/-- The warning (if any) contributed by one column. -/
def warnCol (c : String × List PyVal) : Option String :=
  if isObjCol c.2 ∧ 1 < (colKinds c.2).length then some (mixedMsg c.1) else none

/-- The warnings of one mixed-datatype scan over a column list, in order. -/
def mixedWarningsOf (cols : List (String × List PyVal)) : List String := cols.filterMap warnCol

/-- The warnings of one scan over a table. -/
def mixedWarnings (t : Table) : List String := mixedWarningsOf t.cols

/-- The warnings one scan contributes on the current state: none while no
table is loaded. -/
def scanWarnings (L : Loader) : List String :=
  match L.df with
  | none => []
  | some t => mixedWarnings t

/-- DataLoader._check_mixed_datatypes: appends to self.warnings (nothing
when no table is loaded, mirroring the early return) and touches nothing
else. -/
def checkMixed (L : Loader) : Loader :=
  { L with warnings := L.warnings ++ scanWarnings L }

/-- DataLoader._finalize: reset_index is a no-op on the model (the table
keeps no explicit index); a loaded table with zero rows is an error. -/
def finalize (L : Loader) : Except PyExc Unit :=
  match L.df with
  | none => Except.ok ()
  | some t => if t.nrows = 0 then Except.error (PyExc.valueError "Dataset contains no rows.") else Except.ok ()

/-- Two-decimal rendering of a value given in hundredths.  The source
formats a Python float with ".2f"; the model truncates instead of rounding,
which no claim observes. -/
def fmtHundredths (h : Nat) : String :=
  natStr (h / 100) ++ "." ++ (if h % 100 < 10 then "0" ++ natStr (h % 100) else natStr (h % 100))

/-- DataLoader._get_readable_size: divide by 1024 until below 1024, choosing
the unit. -/
def sizeReadable (size : Nat) : String :=
  if size < 1024 then fmtHundredths (size * 100) ++ " B"
  else if size < 1024 * 1024 then fmtHundredths (size * 100 / 1024) ++ " KB"
  else if size < 1024 * 1024 * 1024 then fmtHundredths (size * 100 / (1024 * 1024)) ++ " MB"
  else if size < 1024 * 1024 * 1024 * 1024 then
    fmtHundredths (size * 100 / (1024 * 1024 * 1024)) ++ " GB"
  else fmtHundredths (size * 100 / (1024 * 1024 * 1024 * 1024)) ++ " TB"

/-- The metadata dictionary assembled at the end of validate_and_load. -/
def assembleMeta (L : Loader) : Metadata :=
  { file_name := basename L.file.path
    size_readable := sizeReadable (fileSize L.file)
    rows := (L.df.map Table.nrows).getD 0
    columns := (L.df.map fun t => t.cols.length).getD 0
    column_names := (L.df.map fun t => t.cols.map Prod.fst).getD []
    warnings := L.warnings }

/-- DataLoader.validate_and_load.  The source first, when a table is already
loaded, re-runs the mixed-type scan and the finalize check on it (both are
no-ops when self.df is None, so the model runs them unconditionally); then
basic validation, the format reader, the mixed-type scan, the finalize
check, and the metadata assembly. -/
def validateAndLoad (L0 : Loader) (action : String) : Except PyExc Metadata × Loader :=
  let L1 := checkMixed L0
  match finalize L1 with
  | Except.error e => (Except.error e, L1)
  | Except.ok () =>
    match basicValidation L1 with
    | Except.error e => (Except.error e, L1)
    | Except.ok () =>
      match readFileSt L1 action with
      | (Except.error e, L2) => (Except.error e, L2)
      | (Except.ok (), L2) =>
        let L3 := checkMixed L2
        match finalize L3 with
        | Except.error e => (Except.error e, L3)
        | Except.ok () => (Except.ok (assembleMeta L3), L3)

/-- The HTTP shell of src/src/main.py: DuplicateColumnError and ValueError
give a 400 with the message as detail; everything else (including
FileNotFoundError) falls to the generic handler, a 500 with the message
surfaced after the fixed prefix. -/
def uploadStatus : PyExc → Nat × String
  | PyExc.duplicateColumnError m => (400, m)
  | PyExc.valueError m => (400, m)
  | e => (500, "Internal Server Error: " ++ e.msg)

/- ---------------- derived helpers used by theorem statements ---------------- -/

/-- Rows of a successful validation result. -/
def resRows (r : Except PyExc Metadata × Loader) : Option Nat :=
  match r.1 with
  | Except.ok md => some md.rows
  | Except.error _ => none

/-- Warnings of a successful validation result. -/
def resWarnings (r : Except PyExc Metadata × Loader) : Option (List String) :=
  match r.1 with
  | Except.ok md => some md.warnings
  | Except.error _ => none

/-- The condition, mirrored from the readCsvLoop iteration order, under
which the duplicate check of the check policy fires: the first candidate
encoding that decodes the file yields a raw header with a repeated name. -/
def loopHeaderDup (bytes : List Nat) : List Enc → Bool
  | [] => false
  | e :: rest =>
    match decodeBytes e bytes with
    | none => loopHeaderDup bytes rest
    | some cs =>
      match rawHeader (String.mk cs) with
      | RawHeader.tokens hdr => hdr.dedup.length != hdr.length
      | _ => false

/-- Modelled from the spec: the table the external spreadsheet loader
produces from a sheet whose first row holds the raw names raw, after its
positional-suffix deduplication, with the given column contents. -/
def loadedExcel (raw : List String) (nr : Nat) (cc : List (List PyVal)) : Table :=
  { nrows := nr, cols := (mangle raw).zip cc }

/-- A CSV file on disk with the given path and bytes. -/
def mkCsvFile (p : String) (bs : List Nat) : FSFile :=
  { path := p, fileExists := true, bytes := bs, excel := ExcelRead.err "not a spreadsheet" }

/-- A spreadsheet file on disk with the given path and loaded table. -/
def mkXlsxFile (p : String) (t : Table) : FSFile :=
  { path := p, fileExists := true, bytes := [0, 0, 0, 0], excel := ExcelRead.ok t }

/-- Whether pat occurs as a contiguous sublist of text (substring test, used
to state that an error message does or does not mention a name). -/
def hasSubList : List Char → List Char → Bool
  | _, [] => true
  | [], _ :: _ => false
  | c :: cs, p => List.isPrefixOf p (c :: cs) || hasSubList cs p

/-- Value of a decimal digit list (used to invert natStr in proofs). -/
def digitsVal (cs : List Char) : Nat := cs.foldl (fun a c => a * 10 + (c.toNat - 48)) 0

/- ================================================================
   Frame lemmas about the loader state
   ================================================================ -/

lemma checkMixed_file (L : Loader) : (checkMixed L).file = L.file := rfl

lemma checkMixed_df (L : Loader) : (checkMixed L).df = L.df := rfl

lemma checkMixed_maxSizeMb (L : Loader) : (checkMixed L).maxSizeMb = L.maxSizeMb := rfl

lemma checkMixed_warnings (L : Loader) :
    (checkMixed L).warnings = L.warnings ++ scanWarnings L := rfl

lemma csvBranch_warnings (L : Loader) (action : String) :
    ((csvBranch L action).2).warnings = L.warnings := by
  unfold csvBranch
  cases readCsvLoop action L.file.bytes encodings <;> rfl

lemma excelBranch_warnings (L : Loader) (action : String) :
    ((excelBranch L action).2).warnings = L.warnings := by
  unfold excelBranch
  cases L.file.excel with
  | err m => rfl
  | ok t =>
    by_cases h1 : action = "check" ∧ t.cols.any (fun c => matchesSuffix c.1)
    · simp [h1]
    · simp only [if_neg h1]
      by_cases h2 : action = "keep_first" <;> simp [h2]

lemma readFileSt_warnings (L : Loader) (action : String) :
    ((readFileSt L action).2).warnings = L.warnings := by
  unfold readFileSt
  by_cases h1 : extOf L.file.path = "csv"
  · simp [h1, csvBranch_warnings]
  · by_cases h2 : extOf L.file.path = "xlsx" ∨ extOf L.file.path = "xls" <;>
      simp [h1, h2, excelBranch_warnings]

lemma csvBranch_file (L : Loader) (action : String) :
    ((csvBranch L action).2).file = L.file := by
  unfold csvBranch
  cases readCsvLoop action L.file.bytes encodings <;> rfl

lemma excelBranch_file (L : Loader) (action : String) :
    ((excelBranch L action).2).file = L.file := by
  unfold excelBranch
  cases L.file.excel with
  | err m => rfl
  | ok t =>
    by_cases h1 : action = "check" ∧ t.cols.any (fun c => matchesSuffix c.1)
    · simp [h1]
    · simp only [if_neg h1]
      by_cases h2 : action = "keep_first" <;> simp [h2]

lemma readFileSt_file (L : Loader) (action : String) :
    ((readFileSt L action).2).file = L.file := by
  unfold readFileSt
  by_cases h1 : extOf L.file.path = "csv"
  · simp [h1, csvBranch_file]
  · by_cases h2 : extOf L.file.path = "xlsx" ∨ extOf L.file.path = "xls" <;>
      simp [h1, h2, excelBranch_file]

/-- Every state reachable from L within one validate_and_load call keeps
the initial warnings as a prefix. -/
lemma validateAndLoad_warnings_mono (L : Loader) (action : String) :
    ∃ tl, ((validateAndLoad L action).2).warnings = L.warnings ++ tl := by
  unfold validateAndLoad
  dsimp only
  cases h1 : finalize (checkMixed L) with
  | error e => exact ⟨scanWarnings L, rfl⟩
  | ok u =>
    cases u
    cases h2 : basicValidation (checkMixed L) with
    | error e => exact ⟨scanWarnings L, rfl⟩
    | ok u2 =>
      cases u2
      cases h3 : readFileSt (checkMixed L) action with
      | mk r L2 =>
        have hw2 : L2.warnings = L.warnings ++ scanWarnings L := by
          have := readFileSt_warnings (checkMixed L) action
          rw [h3] at this
          simpa [checkMixed_warnings] using this
        cases r with
        | error e => exact ⟨scanWarnings L, hw2⟩
        | ok u3 =>
          cases u3
          cases h4 : finalize (checkMixed L2) with
          | error e =>
            exact ⟨scanWarnings L ++ scanWarnings L2, by
              simp [h4, checkMixed_warnings, hw2, List.append_assoc]⟩
          | ok u4 =>
            cases u4
            exact ⟨scanWarnings L ++ scanWarnings L2, by
              simp [h4, checkMixed_warnings, hw2, List.append_assoc]⟩

/- ================================================================
   Small step lemmas
   ================================================================ -/

lemma finalize_checkMixed_none (L : Loader) (h : L.df = none) :
    finalize (checkMixed L) = Except.ok () := by
  unfold finalize
  rw [checkMixed_df, h]

lemma basicValidation_ok (L : Loader) (hex : L.file.fileExists = true)
    (hsz : fileSize L.file ≠ 0) (hlim : fileSize L.file ≤ L.maxSizeMb * 1024 * 1024) :
    basicValidation L = Except.ok () := by
  unfold basicValidation
  simp [hex, hsz, Nat.not_lt.mpr hlim]

lemma basicValidation_checkMixed (L : Loader) :
    basicValidation (checkMixed L) = basicValidation L := rfl

lemma headerCheck_not_check (action text : String) (h : action ≠ "check") :
    headerCheck action text = Except.ok () := by
  unfold headerCheck
  rw [if_neg h]

/- ================================================================
   C4: exception-to-status mapping of the HTTP shell
   ================================================================ -/

/-- C4 counterexample: validating a nonexistent file raises the not-found
failure as a FileNotFoundError, which the HTTP shell of main.py maps to the
server-error status 500 (with the message surfaced), not to a client-error
status as the claim asserts for all nine failure kinds. -/
theorem c4_counterexample :
    (validateAndLoad
        (initLoader { path := "no.csv", fileExists := false, bytes := [], excel := ExcelRead.err "e" } 50)
        "check").1
      = Except.error (PyExc.fileNotFoundError "File not found: no.csv")
    ∧ uploadStatus (PyExc.fileNotFoundError "File not found: no.csv")
      = (500, "Internal Server Error: File not found: no.csv")
    ∧ (uploadStatus (PyExc.fileNotFoundError "File not found: no.csv")).1 ≠ 400 := by
  decide

/-- C4 amended: the HTTP shell maps DuplicateColumnError and ValueError
(the exceptions carrying the EmptyFile, TooLarge, UnsupportedFormat,
EncodingError, EmptyHeader, NoRows and FormatReadError failures) to the
client-error status 400 with the message as detail; the NotFound failure is
raised as FileNotFoundError, which is neither of those, so it falls to the
generic handler and maps to the server-error status 500 with the underlying
message surfaced, as does any unanticipated internal fault. -/
theorem c4_amended : ∀ m : String,
    uploadStatus (PyExc.valueError m) = (400, m)
    ∧ uploadStatus (PyExc.duplicateColumnError m) = (400, m)
    ∧ uploadStatus (PyExc.fileNotFoundError m) = (500, "Internal Server Error: " ++ m)
    ∧ uploadStatus (PyExc.otherError m) = (500, "Internal Server Error: " ++ m) :=
  fun _ => ⟨rfl, rfl, rfl, rfl⟩

/- ================================================================
   C5: extension dispatch
   ================================================================ -/

/-- C5 counterexample: an unsupported extension fails with a fixed message
that does not name the rejected extension: the message for a txt file and
for a foo file is the same constant string, and the extension txt does not
occur in it as a substring. -/
theorem c5_counterexample :
    (validateAndLoad (initLoader (mkCsvFile "d.txt" (utf8Encode "dummy")) 50) "check").1
      = Except.error (PyExc.valueError "Unsupported file format. Use CSV or Excel.")
    ∧ (validateAndLoad (initLoader (mkCsvFile "d.foo" (utf8Encode "dummy")) 50) "check").1
      = Except.error (PyExc.valueError "Unsupported file format. Use CSV or Excel.")
    ∧ hasSubList ("Unsupported file format. Use CSV or Excel.").data ("txt").data = false := by
  decide

/-- C5 amended: the reader is selected from the lower-cased final
dot-component of the path (hence case-insensitively): csv selects the CSV
reader, xlsx or xls selects the spreadsheet reader, and any other extension
fails with the UnsupportedFormat ValueError carrying a fixed message that
does not name the rejected extension. -/
theorem c5_amended : ∀ (L : Loader) (action : String),
    (extOf L.file.path = "csv" → readFileSt L action = csvBranch L action)
    ∧ (extOf L.file.path = "xlsx" ∨ extOf L.file.path = "xls" →
        readFileSt L action = excelBranch L action)
    ∧ (extOf L.file.path ≠ "csv" → extOf L.file.path ≠ "xlsx" → extOf L.file.path ≠ "xls" →
        L.df = none → L.file.fileExists = true → fileSize L.file ≠ 0 →
        fileSize L.file ≤ L.maxSizeMb * 1024 * 1024 →
        (validateAndLoad L action).1
          = Except.error (PyExc.valueError "Unsupported file format. Use CSV or Excel.")) := by
  intro L action
  refine ⟨fun h => by simp [readFileSt, h], fun h => ?_, fun h1 h2 h3 hdf hex hsz hlim => ?_⟩
  · rcases h with h | h <;> simp [readFileSt, h]
  · have hfin : finalize (checkMixed L) = Except.ok () := finalize_checkMixed_none L hdf
    have hbas : basicValidation (checkMixed L) = Except.ok () := by
      rw [basicValidation_checkMixed]
      exact basicValidation_ok L hex hsz hlim
    have hread : readFileSt (checkMixed L) action
        = (Except.error (PyExc.valueError "Unsupported file format. Use CSV or Excel."),
           checkMixed L) := by
      unfold readFileSt
      rw [checkMixed_file]
      simp [h1, h2, h3]
    unfold validateAndLoad
    dsimp only
    rw [hfin, hbas, hread]

/-- C5 witness: a markdown extension takes the unsupported branch, and an
upper-case CSV extension selects the CSV reader. -/
theorem c5_amended_witness :
    (validateAndLoad (initLoader (mkCsvFile "d.md" (utf8Encode "x")) 50) "check").1
      = Except.error (PyExc.valueError "Unsupported file format. Use CSV or Excel.")
    ∧ readFileSt (initLoader (mkCsvFile "d.CSV" (utf8Encode "a\n1\n")) 50) "check"
      = csvBranch (initLoader (mkCsvFile "d.CSV" (utf8Encode "a\n1\n")) 50) "check" :=
  ⟨(c5_amended (initLoader (mkCsvFile "d.md" (utf8Encode "x")) 50) "check").2.2
      (by decide) (by decide) (by decide) rfl rfl (by decide) (by decide),
   (c5_amended (initLoader (mkCsvFile "d.CSV" (utf8Encode "a\n1\n")) 50) "check").1
      (by decide)⟩

/- ================================================================
   C9: unknown policies behave as rename
   ================================================================ -/

lemma readCsvLoop_action_eq (action : String) (bytes : List Nat)
    (h1 : action ≠ "check") (h2 : action ≠ "keep_first") :
    ∀ encs, readCsvLoop action bytes encs = readCsvLoop "rename" bytes encs := by
  intro encs
  induction encs with
  | nil => rfl
  | cons e rest ih =>
    rw [readCsvLoop, readCsvLoop]
    cases hd : decodeBytes e bytes with
    | none => exact ih
    | some cs =>
      dsimp only
      rw [headerCheck_not_check action _ h1, headerCheck_not_check "rename" _ (by decide)]
      dsimp only
      cases hp : pdReadCsv (String.mk cs) with
      | error m => cases hre : rest.isEmpty <;> simp [hre, ih]
      | ok t =>
        dsimp only
        rw [if_neg h2, if_neg (show ¬("rename" = "keep_first") by decide)]

lemma csvBranch_action_eq (L : Loader) (action : String)
    (h1 : action ≠ "check") (h2 : action ≠ "keep_first") :
    csvBranch L action = csvBranch L "rename" := by
  unfold csvBranch
  rw [readCsvLoop_action_eq action L.file.bytes h1 h2]

lemma excelBranch_action_eq (L : Loader) (action : String)
    (h1 : action ≠ "check") (h2 : action ≠ "keep_first") :
    excelBranch L action = excelBranch L "rename" := by
  unfold excelBranch
  cases L.file.excel with
  | err m => rfl
  | ok t =>
    dsimp only
    rw [if_neg (fun hc => h1 hc.1),
        if_neg (show ¬("rename" = "check" ∧ t.cols.any fun c => matchesSuffix c.1) from
          fun hc => absurd hc.1 (by decide)),
        if_neg h2, if_neg (show ¬("rename" = "keep_first") by decide)]

lemma readFileSt_action_eq (L : Loader) (action : String)
    (h1 : action ≠ "check") (h2 : action ≠ "keep_first") :
    readFileSt L action = readFileSt L "rename" := by
  unfold readFileSt
  by_cases hc : extOf L.file.path = "csv"
  · simp [hc, csvBranch_action_eq L action h1 h2]
  · by_cases hx : extOf L.file.path = "xlsx" ∨ extOf L.file.path = "xls" <;>
      simp [hc, hx, excelBranch_action_eq L action h1 h2]

/-- C9: validate_and_load never rejects an unknown policy string: any
action other than check and keep_first (in particular delete or the empty
string) takes exactly the branches the rename policy takes, so the whole
call is equal to the call with rename, performing no raw-header duplicate
check and no column dropping and returning the auto-suffixed names of the
table loader for duplicated columns. -/
theorem c9_unknown_action : ∀ (L : Loader) (action : String),
    action ≠ "check" → action ≠ "keep_first" →
    validateAndLoad L action = validateAndLoad L "rename" := by
  intro L action h1 h2
  unfold validateAndLoad
  dsimp only
  rw [readFileSt_action_eq (checkMixed L) action h1 h2]

/-- C9 witness: the delete action on a file with a duplicated header equals
the rename run, whose metadata carries the auto-suffixed names a and a.1. -/
theorem c9_unknown_action_witness :
    (("delete" : String) ≠ "check" ∧ ("delete" : String) ≠ "keep_first")
    ∧ validateAndLoad (initLoader (mkCsvFile "d.csv" (utf8Encode "a,a\n1,2\n")) 50) "delete"
      = validateAndLoad (initLoader (mkCsvFile "d.csv" (utf8Encode "a,a\n1,2\n")) 50) "rename"
    ∧ ((validateAndLoad (initLoader (mkCsvFile "d.csv" (utf8Encode "a,a\n1,2\n")) 50)
        "rename").1.toOption.map Metadata.column_names) = some ["a", "a.1"] :=
  ⟨by decide,
   c9_unknown_action (initLoader (mkCsvFile "d.csv" (utf8Encode "a,a\n1,2\n")) 50) "delete"
     (by decide) (by decide),
   by decide⟩

/- ================================================================
   C10: warnings accumulate across calls on one instance
   ================================================================ -/

/-- C10: the warnings list is instance-level state that is never reset:
every call leaves the prior warnings as a prefix of the new state, and on a
concrete spreadsheet with one mixed-type column the first call returns that
warning once while a second call on the same instance returns it three
times (once from the pre-load re-scan of the retained table and once from
the post-load scan, on top of the retained copy), hence more than once. -/
theorem c10_warnings_accumulate :
    (∀ (L : Loader) (action : String),
      ∃ tl, ((validateAndLoad L action).2).warnings = L.warnings ++ tl)
    ∧ resWarnings (validateAndLoad
        (initLoader (mkXlsxFile "t.xlsx"
          { nrows := 2, cols := [("a", [PyVal.vInt 1, PyVal.vStr "hello"])] }) 50) "check")
        = some [mixedMsg "a"]
    ∧ resWarnings (validateAndLoad
        ((validateAndLoad (initLoader (mkXlsxFile "t.xlsx"
          { nrows := 2, cols := [("a", [PyVal.vInt 1, PyVal.vStr "hello"])] }) 50) "check").2)
        "check")
        = some [mixedMsg "a", mixedMsg "a", mixedMsg "a"]
    ∧ 1 < ([mixedMsg "a", mixedMsg "a", mixedMsg "a"].count (mixedMsg "a")) :=
  ⟨validateAndLoad_warnings_mono, by decide, by decide, by decide⟩

/- ================================================================
   C8: the mixed-datatype scan
   ================================================================ -/

lemma str_affix_inj (pre suf a b : String) (h : pre ++ a ++ suf = pre ++ b ++ suf) : a = b := by
  have hd : (pre ++ a ++ suf).data = (pre ++ b ++ suf).data := by rw [h]
  simp only [String.data_append, List.append_assoc] at hd
  have h1 := List.append_cancel_left hd
  have h2 := List.append_cancel_right h1
  cases a
  cases b
  exact congrArg String.mk h2

lemma mixedMsg_eq (c : String) :
    mixedMsg c = ("Column " ++ sqch) ++ c
      ++ (sqch ++ " has mixed datatypes (e.g., Number and String).") := by
  unfold mixedMsg
  simp [String.append_assoc]

lemma mixedMsg_inj {a b : String} (h : mixedMsg a = mixedMsg b) : a = b := by
  rw [mixedMsg_eq, mixedMsg_eq] at h
  exact str_affix_inj _ _ a b h

lemma mixedWarningsOf_not_mem (cols : List (String × List PyVal)) (name : String)
    (h : name ∉ cols.map Prod.fst) : mixedMsg name ∉ mixedWarningsOf cols := by
  intro hmem
  unfold mixedWarningsOf at hmem
  obtain ⟨c, hc, hw⟩ := List.mem_filterMap.mp hmem
  unfold warnCol at hw
  by_cases hcond : isObjCol c.2 = true ∧ 1 < (colKinds c.2).length
  · rw [if_pos hcond] at hw
    have hceq : c.1 = name := mixedMsg_inj (Option.some.inj hw)
    exact h (hceq ▸ List.mem_map_of_mem Prod.fst hc)
  · rw [if_neg hcond] at hw
    cases hw

lemma mixedWarningsOf_count_one (cols : List (String × List PyVal)) (name : String)
    (cells : List PyVal) (hn : (cols.map Prod.fst).Nodup) (hmem : (name, cells) ∈ cols)
    (hw : warnCol (name, cells) = some (mixedMsg name)) :
    (mixedWarningsOf cols).count (mixedMsg name) = 1 := by
  induction cols with
  | nil => cases hmem
  | cons c rest ih =>
    rw [List.map_cons, List.nodup_cons] at hn
    rcases List.mem_cons.mp hmem with hc | hc
    · unfold mixedWarningsOf
      rw [List.filterMap_cons, ← hc, hw]
      have h0 : mixedMsg name ∉ List.filterMap warnCol rest := by
        apply mixedWarningsOf_not_mem
        have := hn.1
        rw [← hc] at this
        exact this
      rw [List.count_cons_self, List.count_eq_zero.mpr h0]
    · have hname : name ∈ rest.map Prod.fst := List.mem_map_of_mem Prod.fst hc
      have hne : c.1 ≠ name := fun he => hn.1 (he ▸ hname)
      unfold mixedWarningsOf
      rw [List.filterMap_cons]
      cases hwc : warnCol c with
      | none => exact ih hn.2 hc
      | some w =>
        have hwc1 : w = mixedMsg c.1 := by
          unfold warnCol at hwc
          by_cases hcond : isObjCol c.2 = true ∧ 1 < (colKinds c.2).length
          · rw [if_pos hcond] at hwc
            exact (Option.some.inj hwc).symm
          · rw [if_neg hcond] at hwc
            cases hwc
        rw [List.count_cons_of_ne]
        · exact ih hn.2 hc
        · rw [hwc1]
          intro he
          exact hne (mixedMsg_inj he).symm

lemma one_lt_length_of_two_mem {α : Type} {l : List α} {a b : α} (ha : a ∈ l) (hb : b ∈ l)
    (hab : a ≠ b) : 1 < l.length := by
  cases l with
  | nil => cases ha
  | cons x xs =>
    cases xs with
    | nil =>
      simp only [List.mem_singleton] at ha hb
      exact absurd (ha.trans hb.symm) hab
    | cons y ys => simp only [List.length_cons]; omega

lemma warnCol_some_of_mixed (name : String) (cells : List PyVal)
    (hs : Kind.kStr ∈ colKinds cells)
    (hnum : Kind.kInt ∈ colKinds cells ∨ Kind.kFloat ∈ colKinds cells) :
    warnCol (name, cells) = some (mixedMsg name) := by
  unfold warnCol
  rw [if_pos]
  constructor
  · unfold isObjCol
    rw [List.any_eq_true]
    exact ⟨Kind.kStr, List.mem_dedup.mp hs, by decide⟩
  · rcases hnum with h | h
    · exact one_lt_length_of_two_mem h hs (by decide)
    · exact one_lt_length_of_two_mem h hs (by decide)

/-- C8: on every loaded table with distinct column names, a freeform/text
column whose non-missing cells mix textual and numeric values contributes
exactly one warning naming that column; a column whose non-missing cells
have at most one kind (in particular a column of only missing values plus a
single kind) contributes no warning; and the scan is a pure warning pass:
it never fails, never touches the loaded table, and only appends to the
warning list. -/
theorem c8_mixed_warnings :
    (∀ (t : Table) (name : String) (cells : List PyVal),
      (t.cols.map Prod.fst).Nodup → (name, cells) ∈ t.cols →
      Kind.kStr ∈ colKinds cells →
      (Kind.kInt ∈ colKinds cells ∨ Kind.kFloat ∈ colKinds cells) →
      (mixedWarnings t).count (mixedMsg name) = 1)
    ∧ (∀ (name : String) (cells : List PyVal),
        (colKinds cells).length ≤ 1 → warnCol (name, cells) = none)
    ∧ (∀ t : Table, (∀ c ∈ t.cols, (colKinds c.2).length ≤ 1) → mixedWarnings t = [])
    ∧ (∀ L : Loader, (checkMixed L).df = L.df ∧ (checkMixed L).file = L.file ∧
        (checkMixed L).warnings = L.warnings ++ scanWarnings L) := by
  refine ⟨?_, ?_, ?_, fun L => ⟨rfl, rfl, rfl⟩⟩
  · intro t name cells hn hmem hs hnum
    exact mixedWarningsOf_count_one t.cols name cells hn hmem
      (warnCol_some_of_mixed name cells hs hnum)
  · intro name cells hlen
    unfold warnCol
    dsimp only
    rw [if_neg]
    intro hc
    omega
  · intro t hall
    unfold mixedWarnings mixedWarningsOf
    rw [List.filterMap_eq_nil_iff]
    intro c hc
    unfold warnCol
    rw [if_neg]
    intro hcond
    have := hall c hc
    omega

/-- C8 witness: the column of the repository test (an int, a string and a
float) warns exactly once; an int column with a missing value warns never. -/
theorem c8_mixed_warnings_witness :
    (([("a", [PyVal.vInt 1, PyVal.vStr "hello", PyVal.vFloat])].map Prod.fst).Nodup
      ∧ Kind.kStr ∈ colKinds [PyVal.vInt 1, PyVal.vStr "hello", PyVal.vFloat]
      ∧ (colKinds [PyVal.vInt 7, PyVal.vNone]).length ≤ 1)
    ∧ (mixedWarnings
        { nrows := 3, cols := [("a", [PyVal.vInt 1, PyVal.vStr "hello", PyVal.vFloat])] }).count
        (mixedMsg "a") = 1
    ∧ warnCol ("b", [PyVal.vInt 7, PyVal.vNone]) = none :=
  ⟨⟨by decide, by decide, by decide⟩,
   c8_mixed_warnings.1 { nrows := 3, cols := [("a", [PyVal.vInt 1, PyVal.vStr "hello", PyVal.vFloat])] }
     "a" [PyVal.vInt 1, PyVal.vStr "hello", PyVal.vFloat]
     (by decide) (by decide) (by decide) (Or.inl (by decide)),
   c8_mixed_warnings.2.1 "b" [PyVal.vInt 7, PyVal.vNone] (by decide)⟩

/- ================================================================
   C6: header-only CSV gives NoRows; EmptyFile only for zero bytes
   ================================================================ -/

lemma rawHeader_of_first (text hline : String) (h1 : (strSplit text '\n').headD "" = hline)
    (h2 : hline ≠ "") (h3 : text ≠ "")
    (h4 : (hline.data.any fun c => c == Char.ofNat 0) = false) :
    rawHeader text = RawHeader.tokens (fieldsOf hline) := by
  have t1 : (text == "") = false := by simp [h3]
  have t2 : (hline == "") = false := by simp [h2]
  unfold rawHeader
  rw [t1]
  dsimp only
  rw [h1, h4, t2]
  simp

lemma headerCheck_ok_nodup (action text : String) (hdr : List String)
    (hr : rawHeader text = RawHeader.tokens hdr) (hnd : hdr.Nodup) :
    headerCheck action text = Except.ok () := by
  unfold headerCheck
  by_cases hc : action = "check"
  · rw [if_pos hc, hr]
    dsimp only
    rw [if_neg (by rw [List.dedup_eq_self.mpr hnd]; exact fun h => h rfl)]
  · rw [if_neg hc]

lemma pdReadCsv_headerOnly (text hline : String) (h : splitLines text = [hline]) :
    pdReadCsv text = Except.ok
      { nrows := 0,
        cols := (mangle (fieldsOf hline)).zip
          ((List.range (mangle (fieldsOf hline)).length).map fun _ => ([] : List PyVal)) } := by
  unfold pdReadCsv
  rw [h]
  exact rfl

lemma readCsvLoop_utf8_ok (action : String) (bytes : List Nat) (cs : List Char) (t : Table)
    (hd : decodeBytes Enc.utf8 bytes = some cs)
    (hh : headerCheck action (String.mk cs) = Except.ok ())
    (hp : pdReadCsv (String.mk cs) = Except.ok t) :
    readCsvLoop action bytes encodings
      = Except.ok (if action = "keep_first" then dropSuffixCols t else t) := by
  unfold encodings
  rw [readCsvLoop, hd]
  dsimp only
  rw [hh]
  dsimp only
  rw [hp]

lemma errCsv_ne_empty (m : String) :
    PyExc.valueError ("Error reading CSV: " ++ m) ≠ PyExc.valueError "File is empty." := by
  intro h
  have h1 := PyExc.valueError.inj h
  have h2 := congrArg String.length h1
  rw [String.length_append] at h2
  have e1 : ("Error reading CSV: " : String).length = 19 := rfl
  have e2 : ("File is empty." : String).length = 14 := rfl
  rw [e1, e2] at h2
  omega

lemma errExcel_ne_empty (m : String) :
    PyExc.valueError ("Error reading Excel: " ++ m) ≠ PyExc.valueError "File is empty." := by
  intro h
  have h1 := PyExc.valueError.inj h
  have h2 := congrArg String.length h1
  rw [String.length_append] at h2
  have e1 : ("Error reading Excel: " : String).length = 21 := rfl
  have e2 : ("File is empty." : String).length = 14 := rfl
  rw [e1, e2] at h2
  omega

lemma readCsvLoop_ne_empty (action : String) (bytes : List Nat) :
    ∀ encs, readCsvLoop action bytes encs ≠ Except.error (PyExc.valueError "File is empty.") := by
  intro encs
  induction encs with
  | nil =>
    intro h
    rw [readCsvLoop] at h
    exact absurd h (by decide)
  | cons e rest ih =>
    intro h
    rw [readCsvLoop] at h
    cases hd : decodeBytes e bytes with
    | none =>
      rw [hd] at h
      exact ih h
    | some cs =>
      rw [hd] at h
      dsimp only at h
      cases hh : headerCheck action (String.mk cs) with
      | ok u =>
        cases u
        rw [hh] at h
        dsimp only at h
        cases hp : pdReadCsv (String.mk cs) with
        | error m =>
          rw [hp] at h
          dsimp only at h
          cases hre : rest.isEmpty
          · rw [hre] at h
            simp only [Bool.false_eq_true, if_false] at h
            exact ih h
          · rw [hre] at h
            simp only [if_true] at h
            exact errCsv_ne_empty m (Except.error.inj h)
        | ok t =>
          rw [hp] at h
          dsimp only at h
          exact Except.noConfusion h
      | error e1 =>
        rw [hh] at h
        cases e1 with
        | duplicateColumnError m =>
          dsimp only at h
          exact PyExc.noConfusion (Except.error.inj h)
        | valueError m =>
          dsimp only at h
          cases hre : rest.isEmpty
          · rw [hre] at h
            simp only [Bool.false_eq_true, if_false] at h
            exact ih h
          · rw [hre] at h
            simp only [if_true] at h
            exact errCsv_ne_empty (PyExc.msg (PyExc.valueError m)) (Except.error.inj h)
        | fileNotFoundError m =>
          dsimp only at h
          cases hre : rest.isEmpty
          · rw [hre] at h
            simp only [Bool.false_eq_true, if_false] at h
            exact ih h
          · rw [hre] at h
            simp only [if_true] at h
            exact errCsv_ne_empty (PyExc.msg (PyExc.fileNotFoundError m)) (Except.error.inj h)
        | otherError m =>
          dsimp only at h
          cases hre : rest.isEmpty
          · rw [hre] at h
            simp only [Bool.false_eq_true, if_false] at h
            exact ih h
          · rw [hre] at h
            simp only [if_true] at h
            exact errCsv_ne_empty (PyExc.msg (PyExc.otherError m)) (Except.error.inj h)

lemma readFileSt_fst_ne_empty (L : Loader) (action : String) :
    (readFileSt L action).1 ≠ Except.error (PyExc.valueError "File is empty.") := by
  unfold readFileSt
  by_cases h1 : extOf L.file.path = "csv"
  · simp only [if_pos h1]
    unfold csvBranch
    cases hr : readCsvLoop action L.file.bytes encodings with
    | ok t =>
      dsimp only
      exact fun h => Except.noConfusion h
    | error e =>
      dsimp only
      intro h
      have he := Except.error.inj h
      rw [he] at hr
      exact readCsvLoop_ne_empty action L.file.bytes encodings hr
  · rw [if_neg h1]
    by_cases h2 : extOf L.file.path = "xlsx" ∨ extOf L.file.path = "xls"
    · rw [if_pos h2]
      unfold excelBranch
      cases hx : L.file.excel with
      | err m =>
        dsimp only
        intro h
        exact errExcel_ne_empty m (Except.error.inj h)
      | ok t =>
        dsimp only
        by_cases hdup : action = "check" ∧ t.cols.any fun c => matchesSuffix c.1
        · rw [if_pos hdup]
          dsimp only
          intro h
          exact PyExc.noConfusion (Except.error.inj h)
        · rw [if_neg hdup]
          by_cases hkf : action = "keep_first"
          · rw [if_pos hkf]
            exact fun h => Except.noConfusion h
          · rw [if_neg hkf]
            exact fun h => Except.noConfusion h
    · rw [if_neg h2]
      dsimp only
      intro h
      have := PyExc.valueError.inj (Except.error.inj h)
      exact absurd this (by decide)

lemma finalize_error (L : Loader) (e : PyExc) (h : finalize L = Except.error e) :
    e = PyExc.valueError "Dataset contains no rows." := by
  unfold finalize at h
  cases hdf : L.df with
  | none =>
    rw [hdf] at h
    cases h
  | some t =>
    rw [hdf] at h
    dsimp only at h
    by_cases hn : t.nrows = 0
    · rw [if_pos hn] at h
      exact (Except.error.inj h).symm
    · rw [if_neg hn] at h
      cases h

lemma basicValidation_empty (L : Loader)
    (h : basicValidation L = Except.error (PyExc.valueError "File is empty.")) :
    fileSize L.file = 0 := by
  unfold basicValidation at h
  cases hex : L.file.fileExists with
  | false =>
    rw [hex] at h
    simp only [Bool.not_false, if_true] at h
    exact absurd (Except.error.inj h) (by intro hh; cases hh)
  | true =>
    rw [hex] at h
    simp only [Bool.not_true, Bool.false_eq_true, if_false] at h
    by_cases hsz : fileSize L.file = 0
    · exact hsz
    · rw [if_neg hsz] at h
      by_cases hlim : L.maxSizeMb * 1024 * 1024 < fileSize L.file
      · rw [if_pos hlim] at h
        have h1 := PyExc.valueError.inj (Except.error.inj h)
        have h2 := congrArg String.length h1
        rw [String.length_append, String.length_append] at h2
        have e1 : ("File too large. Limit is " : String).length = 25 := rfl
        have e2 : ("MB." : String).length = 3 := rfl
        have e3 : ("File is empty." : String).length = 14 := rfl
        rw [e1, e2, e3] at h2
        omega
      · rw [if_neg hlim] at h
        cases h

lemma validate_empty_only (L : Loader) (action : String)
    (h : (validateAndLoad L action).1 = Except.error (PyExc.valueError "File is empty.")) :
    fileSize L.file = 0 := by
  unfold validateAndLoad at h
  dsimp only at h
  cases h1 : finalize (checkMixed L) with
  | error e =>
    rw [h1] at h
    dsimp only at h
    have he := finalize_error (checkMixed L) e h1
    rw [he] at h
    exact absurd (Except.error.inj h) (by decide)
  | ok u =>
    cases u
    rw [h1] at h
    dsimp only at h
    cases h2 : basicValidation (checkMixed L) with
    | error e =>
      rw [h2] at h
      dsimp only at h
      have he := Except.error.inj h
      rw [he] at h2
      rw [basicValidation_checkMixed] at h2
      exact basicValidation_empty L h2
    | ok u2 =>
      cases u2
      rw [h2] at h
      dsimp only at h
      cases h3 : readFileSt (checkMixed L) action with
      | mk r L2 =>
        rw [h3] at h
        cases r with
        | error e =>
          dsimp only at h
          have he := Except.error.inj h
          have hne := readFileSt_fst_ne_empty (checkMixed L) action
          rw [h3] at hne
          dsimp only at hne
          exact absurd (by rw [he]) hne
        | ok u3 =>
          cases u3
          dsimp only at h
          cases h4 : finalize (checkMixed L2) with
          | error e =>
            rw [h4] at h
            dsimp only at h
            have he := finalize_error (checkMixed L2) e h4
            rw [he] at h
            exact absurd (Except.error.inj h) (by decide)
          | ok u4 =>
            cases u4
            rw [h4] at h
            dsimp only at h
            exact Except.noConfusion h

/-- C6: a CSV whose decoded text consists of one non-empty, duplicate-free
header line and no data rows passes every earlier stage and fails at the
emptiness check with the NoRows ValueError, under every policy; a zero-byte
file fails with the EmptyFile ValueError; the EmptyFile message arises for
no other input (whenever a run ends with it the file size is zero); and the
two failures are distinct values. -/
theorem c6_norows_vs_emptyfile :
    (∀ (f : FSFile) (mb : Nat) (action : String) (cs : List Char) (hline : String),
      f.fileExists = true → extOf f.path = "csv" →
      fileSize f ≠ 0 → fileSize f ≤ mb * 1024 * 1024 →
      decodeBytes Enc.utf8 f.bytes = some cs →
      (strSplit (String.mk cs) '\n').headD "" = hline → hline ≠ "" →
      ((hline.data.any fun c => c == Char.ofNat 0) = false) →
      splitLines (String.mk cs) = [hline] →
      (fieldsOf hline).Nodup →
      (validateAndLoad (initLoader f mb) action).1
        = Except.error (PyExc.valueError "Dataset contains no rows."))
    ∧ (∀ (f : FSFile) (mb : Nat) (action : String),
        f.fileExists = true → f.bytes = [] →
        (validateAndLoad (initLoader f mb) action).1
          = Except.error (PyExc.valueError "File is empty."))
    ∧ (∀ (L : Loader) (action : String),
        (validateAndLoad L action).1 = Except.error (PyExc.valueError "File is empty.") →
        fileSize L.file = 0)
    ∧ PyExc.valueError "Dataset contains no rows." ≠ PyExc.valueError "File is empty." := by
  refine ⟨?_, ?_, validate_empty_only, by decide⟩
  · intro f mb action cs hline hex hext hsz hlim hdec hhead hne hnonul hsplit hnodup
    have htne : String.mk cs ≠ "" := by
      intro h0
      rw [h0] at hsplit
      exact List.noConfusion hsplit
    have hraw : rawHeader (String.mk cs) = RawHeader.tokens (fieldsOf hline) :=
      rawHeader_of_first (String.mk cs) hline hhead hne htne hnonul
    have hh : headerCheck action (String.mk cs) = Except.ok () :=
      headerCheck_ok_nodup action (String.mk cs) (fieldsOf hline) hraw hnodup
    have hp := pdReadCsv_headerOnly (String.mk cs) hline hsplit
    have hloop := readCsvLoop_utf8_ok action f.bytes cs _ hdec hh hp
    have L0 := initLoader f mb
    have hfin : finalize (checkMixed (initLoader f mb)) = Except.ok () :=
      finalize_checkMixed_none _ rfl
    have hbas : basicValidation (checkMixed (initLoader f mb)) = Except.ok () := by
      rw [basicValidation_checkMixed]
      exact basicValidation_ok (initLoader f mb) hex hsz hlim
    have hread : readFileSt (checkMixed (initLoader f mb)) action
        = (Except.ok (), { checkMixed (initLoader f mb) with
            df := some (if action = "keep_first"
              then dropSuffixCols
                { nrows := 0,
                  cols := (mangle (fieldsOf hline)).zip
                    ((List.range (mangle (fieldsOf hline)).length).map fun _ => ([] : List PyVal)) }
              else
                { nrows := 0,
                  cols := (mangle (fieldsOf hline)).zip
                    ((List.range (mangle (fieldsOf hline)).length).map fun _ => ([] : List PyVal)) }) }) := by
      unfold readFileSt
      rw [if_pos (show extOf (checkMixed (initLoader f mb)).file.path = "csv" from hext)]
      unfold csvBranch
      rw [show (checkMixed (initLoader f mb)).file.bytes = f.bytes from rfl, hloop]
    have hnr0 : (if action = "keep_first"
        then dropSuffixCols
          { nrows := 0,
            cols := (mangle (fieldsOf hline)).zip
              ((List.range (mangle (fieldsOf hline)).length).map fun _ => ([] : List PyVal)) }
        else
          { nrows := 0,
            cols := (mangle (fieldsOf hline)).zip
              ((List.range (mangle (fieldsOf hline)).length).map fun _ => ([] : List PyVal)) }).nrows
        = 0 := by
      by_cases hkf : action = "keep_first"
      · rw [if_pos hkf]; rfl
      · rw [if_neg hkf]
    unfold validateAndLoad
    dsimp only
    rw [hfin, hbas, hread]
    dsimp only
    rw [show finalize (checkMixed { checkMixed (initLoader f mb) with
            df := some (if action = "keep_first"
              then dropSuffixCols
                { nrows := 0,
                  cols := (mangle (fieldsOf hline)).zip
                    ((List.range (mangle (fieldsOf hline)).length).map fun _ => ([] : List PyVal)) }
              else
                { nrows := 0,
                  cols := (mangle (fieldsOf hline)).zip
                    ((List.range (mangle (fieldsOf hline)).length).map fun _ => ([] : List PyVal)) }) })
        = Except.error (PyExc.valueError "Dataset contains no rows.") from by
      unfold finalize
      rw [checkMixed_df]
      dsimp only
      rw [if_pos hnr0]]
  · intro f mb action hex hbytes
    have hfin : finalize (checkMixed (initLoader f mb)) = Except.ok () :=
      finalize_checkMixed_none _ rfl
    have hbas : basicValidation (checkMixed (initLoader f mb))
        = Except.error (PyExc.valueError "File is empty.") := by
      rw [basicValidation_checkMixed]
      unfold basicValidation
      dsimp only [initLoader]
      rw [hex]
      simp [fileSize, hbytes]
    unfold validateAndLoad
    dsimp only
    rw [hfin, hbas]

/-- C6 witness: the header-only file of the repository test suite fails
with NoRows; a zero-byte file fails with EmptyFile. -/
theorem c6_norows_vs_emptyfile_witness :
    (validateAndLoad (initLoader (mkCsvFile "d.csv" (utf8Encode "a,b\n")) 50) "check").1
      = Except.error (PyExc.valueError "Dataset contains no rows.")
    ∧ (validateAndLoad (initLoader (mkCsvFile "e.csv" []) 50) "check").1
      = Except.error (PyExc.valueError "File is empty.") :=
  ⟨c6_norows_vs_emptyfile.1 (mkCsvFile "d.csv" (utf8Encode "a,b\n")) 50 "check"
      ("a,b\n").data "a,b" (by decide) (by decide) (by decide) (by decide) (by decide)
      (by decide) (by decide) (by decide) (by decide) (by decide),
   c6_norows_vs_emptyfile.2.1 (mkCsvFile "e.csv" []) 50 "check" (by decide) rfl⟩

/- ================================================================
   Decimal rendering and the auto-suffix pattern
   ================================================================ -/

lemma toNat_ofNat_small {m : Nat} (h : m < 55296) : (Char.ofNat m).toNat = m := by
  have hv : m.isValidChar := Or.inl h
  simp [Char.ofNat, hv, Char.ofNatAux, Char.toNat, UInt32.toNat, BitVec.toNat_ofNatLt]

lemma digitChar_toNat (n : Nat) : (digitChar n).toNat = 48 + n % 10 := by
  unfold digitChar
  have h : n % 10 < 10 := Nat.mod_lt _ (by omega)
  exact toNat_ofNat_small (by omega)

lemma digitChar_isDigit (n : Nat) : isDigitCh (digitChar n) = true := by
  unfold isDigitCh
  rw [digitChar_toNat]
  have h : n % 10 < 10 := Nat.mod_lt _ (by omega)
  simp only [Bool.and_eq_true, decide_eq_true_eq]
  omega

lemma natStrCore_digits : ∀ (fuel n : Nat), ∀ c ∈ natStrCore fuel n, isDigitCh c = true := by
  intro fuel
  induction fuel with
  | zero => intro n c hc; cases hc
  | succ f ih =>
    intro n c hc
    rw [natStrCore] at hc
    by_cases h : n < 10
    · rw [if_pos h] at hc
      rw [List.mem_singleton.mp hc]
      exact digitChar_isDigit n
    · rw [if_neg h] at hc
      rcases List.mem_append.mp hc with h1 | h1
      · exact ih (n / 10) c h1
      · rw [List.mem_singleton.mp h1]
        exact digitChar_isDigit _

lemma natStrCore_ne_nil (fuel n : Nat) : natStrCore (fuel + 1) n ≠ [] := by
  rw [natStrCore]
  by_cases h : n < 10
  · rw [if_pos h]
    exact fun hc => List.noConfusion hc
  · rw [if_neg h]
    intro hc
    have := List.append_eq_nil.mp hc
    exact List.noConfusion this.2

lemma natStr_data (n : Nat) : (natStr n).data = natStrCore (n + 1) n := rfl

lemma takeWhile_append_all {p : Char → Bool} :
    ∀ (xs ys : List Char), (∀ c ∈ xs, p c = true) →
      (xs ++ ys).takeWhile p = xs ++ ys.takeWhile p := by
  intro xs
  induction xs with
  | nil => intro ys _; rfl
  | cons a l ih =>
    intro ys h
    rw [List.cons_append, List.takeWhile_cons, if_pos (h a (List.mem_cons_self a l)),
      List.cons_append, ih ys (fun c hc => h c (List.mem_cons_of_mem a hc))]

lemma dropWhile_append_all {p : Char → Bool} :
    ∀ (xs ys : List Char), (∀ c ∈ xs, p c = true) →
      (xs ++ ys).dropWhile p = ys.dropWhile p := by
  intro xs
  induction xs with
  | nil => intro ys _; rfl
  | cons a l ih =>
    intro ys h
    rw [List.cons_append, List.dropWhile_cons, if_pos (h a (List.mem_cons_self a l)),
      ih ys (fun c hc => h c (List.mem_cons_of_mem a hc))]

lemma matchesSuffix_suffixed (nm : String) (k : Nat) :
    matchesSuffix (nm ++ "." ++ natStr k) = true := by
  unfold matchesSuffix
  have hd : (nm ++ "." ++ natStr k).data = nm.data ++ '.' :: (natStr k).data := by
    simp [String.data_append]
  rw [hd, List.reverse_append, List.reverse_cons, List.append_assoc, List.singleton_append]
  have hdig : ∀ c ∈ (natStr k).data.reverse, isDigitCh c = true := by
    intro c hc
    exact natStrCore_digits (k + 1) k c (List.mem_reverse.mp hc)
  dsimp only
  rw [takeWhile_append_all _ _ hdig, dropWhile_append_all _ _ hdig,
    List.takeWhile_cons, List.dropWhile_cons]
  have hnd : isDigitCh '.' = false := by decide
  simp only [hnd, Bool.false_eq_true, if_false, List.append_nil, List.head?_cons,
    Bool.and_eq_true, Bool.not_eq_true', beq_self_eq_true, and_true]
  cases hrev : (natStr k).data.reverse with
  | nil => exact absurd (List.reverse_eq_nil_iff.mp hrev) (natStrCore_ne_nil k k)
  | cons a l => rfl

lemma digitsVal_append_one (xs : List Char) (c : Char) :
    digitsVal (xs ++ [c]) = digitsVal xs * 10 + (c.toNat - 48) := by
  unfold digitsVal
  rw [List.foldl_append]
  rfl

lemma digitsVal_natStrCore : ∀ (fuel n : Nat), n < 10 ^ fuel →
    digitsVal (natStrCore fuel n) = n := by
  intro fuel
  induction fuel with
  | zero =>
    intro n h
    rw [pow_zero] at h
    rw [natStrCore]
    unfold digitsVal
    simp
    omega
  | succ f ih =>
    intro n h
    rw [natStrCore]
    by_cases hn : n < 10
    · rw [if_pos hn]
      show digitsVal ([] ++ [digitChar n]) = n
      rw [digitsVal_append_one, digitChar_toNat]
      unfold digitsVal
      simp
      omega
    · rw [if_neg hn]
      rw [digitsVal_append_one, digitChar_toNat]
      rw [ih (n / 10) (by
        rw [pow_succ] at h
        exact (Nat.div_lt_iff_lt_mul (by omega)).mpr h)]
      omega

lemma natStr_inj {a b : Nat} (h : natStr a = natStr b) : a = b := by
  have hd : natStrCore (a + 1) a = natStrCore (b + 1) b := congrArg String.data h
  have ha : a < 10 ^ (a + 1) := by
    calc a < 10 ^ a := Nat.lt_pow_self (by omega) a
    _ ≤ 10 ^ (a + 1) := Nat.pow_le_pow_right (by omega) (by omega)
  have hb : b < 10 ^ (b + 1) := by
    calc b < 10 ^ b := Nat.lt_pow_self (by omega) b
    _ ≤ 10 ^ (b + 1) := Nat.pow_le_pow_right (by omega) (by omega)
  have hva := digitsVal_natStrCore (a + 1) a ha
  have hvb := digitsVal_natStrCore (b + 1) b hb
  rw [hd] at hva
  rw [hvb] at hva
  exact hva.symm

lemma natStr_length_pos (n : Nat) : 0 < (natStr n).length := by
  show 0 < (natStr n).data.length
  rw [natStr_data]
  cases hc : natStrCore (n + 1) n with
  | nil => exact absurd hc (natStrCore_ne_nil n n)
  | cons a l => simp

lemma suffixed_ne (nm : String) (k : Nat) : nm ++ "." ++ natStr k ≠ nm := by
  intro h
  have hl := congrArg String.length h
  rw [String.length_append, String.length_append] at hl
  have h1 := natStr_length_pos k
  have h2 : ("." : String).length = 1 := rfl
  omega

lemma suffix_inj (nm : String) {j k : Nat}
    (h : nm ++ "." ++ natStr j = nm ++ "." ++ natStr k) : j = k := by
  apply natStr_inj
  have hd := congrArg String.data h
  simp only [String.data_append, List.append_assoc] at hd
  have h1 := List.append_cancel_left hd
  have h2 := List.append_cancel_left h1
  exact String.ext h2

/- ================================================================
   The spec-modelled header deduplication
   ================================================================ -/

lemma mangleGo_length : ∀ (l seen : List String), (mangleGo seen l).length = l.length := by
  intro l
  induction l with
  | nil => intro seen; rfl
  | cons n rest ih =>
    intro seen
    rw [mangleGo]
    simp [ih]

lemma mangle_length (l : List String) : (mangle l).length = l.length :=
  mangleGo_length l []

lemma mangleGo_getD : ∀ (l seen : List String) (i : Nat), i < l.length →
    (mangleGo seen l).getD i "" =
      (if seen.count (l.getD i "") + (l.take i).count (l.getD i "") = 0 then l.getD i ""
       else l.getD i "" ++ "." ++
         natStr (seen.count (l.getD i "") + (l.take i).count (l.getD i ""))) := by
  intro l
  induction l with
  | nil => intro seen i h; cases h
  | cons n rest ih =>
    intro seen i h
    cases i with
    | zero =>
      rw [mangleGo]
      simp [List.take]
    | succ j =>
      rw [mangleGo]
      simp only [List.getD_cons_succ]
      have hj : j < rest.length := by
        simp only [List.length_cons] at h
        omega
      rw [ih (n :: seen) j hj]
      have hk : (n :: seen).count (rest.getD j "") + (rest.take j).count (rest.getD j "")
          = seen.count (rest.getD j "") + ((n :: rest).take (j + 1)).count (rest.getD j "") := by
        rw [List.take_succ_cons, List.count_cons, List.count_cons]
        omega
      rw [hk]

lemma mangle_getD (l : List String) (i : Nat) (h : i < l.length) :
    (mangle l).getD i "" =
      (if (l.take i).count (l.getD i "") = 0 then l.getD i ""
       else l.getD i "" ++ "." ++ natStr ((l.take i).count (l.getD i ""))) := by
  have hm := mangleGo_getD l [] i h
  simpa using hm

lemma mangleGo_dup_suffix : ∀ (l seen : List String),
    ((∃ x ∈ l, x ∈ seen) ∨ ¬ l.Nodup) →
    ∃ s ∈ mangleGo seen l, matchesSuffix s = true := by
  intro l
  induction l with
  | nil =>
    intro seen h
    rcases h with ⟨x, hx, _⟩ | h
    · cases hx
    · exact absurd List.nodup_nil h
  | cons n rest ih =>
    intro seen h
    rw [mangleGo]
    by_cases hn : seen.count n = 0
    · rw [if_pos hn]
      have hnotin : n ∉ seen := List.count_eq_zero.mp hn
      have h' : (∃ x ∈ rest, x ∈ n :: seen) ∨ ¬ rest.Nodup := by
        rcases h with ⟨x, hx, hxs⟩ | hnd
        · rcases List.mem_cons.mp hx with hxn | hx'
          · rw [hxn] at hxs
            exact absurd hxs hnotin
          · exact Or.inl ⟨x, hx', List.mem_cons_of_mem n hxs⟩
        · rw [List.nodup_cons] at hnd
          by_cases hmem : n ∈ rest
          · exact Or.inl ⟨n, hmem, List.mem_cons_self n seen⟩
          · exact Or.inr (fun hr => hnd ⟨hmem, hr⟩)
      obtain ⟨s, hs, hms⟩ := ih (n :: seen) h'
      exact ⟨s, List.mem_cons_of_mem _ hs, hms⟩
    · rw [if_neg hn]
      exact ⟨n ++ "." ++ natStr (seen.count n), List.mem_cons_self _ _,
        matchesSuffix_suffixed _ _⟩

lemma mangle_dup_suffix (l : List String) (h : ¬ l.Nodup) :
    ∃ s ∈ mangle l, matchesSuffix s = true :=
  mangleGo_dup_suffix l [] (Or.inr h)

/- ================================================================
   C1: the check policy on duplicated raw headers
   ================================================================ -/

lemma readCsvLoop_dup (bytes : List Nat) :
    ∀ encs, loopHeaderDup bytes encs = true →
      readCsvLoop "check" bytes encs
        = Except.error (PyExc.duplicateColumnError "Duplicate column names detected.") := by
  intro encs
  induction encs with
  | nil =>
    intro h
    rw [loopHeaderDup] at h
    cases h
  | cons e rest ih =>
    intro h
    rw [loopHeaderDup] at h
    rw [readCsvLoop]
    cases hd : decodeBytes e bytes with
    | none =>
      rw [hd] at h
      exact ih h
    | some cs =>
      rw [hd] at h
      dsimp only at h ⊢
      cases hr : rawHeader (String.mk cs) with
      | empty =>
        rw [hr] at h
        cases h
      | nul =>
        rw [hr] at h
        cases h
      | tokens hdr =>
        rw [hr] at h
        dsimp only at h
        have hne : hdr.dedup.length ≠ hdr.length := by simpa using h
        rw [show headerCheck "check" (String.mk cs)
            = Except.error (PyExc.duplicateColumnError "Duplicate column names detected.") from by
          unfold headerCheck
          rw [if_pos rfl, hr]
          dsimp only
          rw [if_pos hne]]

lemma loadedExcel_any_suffix (raw : List String) (nr : Nat) (cc : List (List PyVal))
    (hlen : raw.length ≤ cc.length) (hnd : ¬ raw.Nodup) :
    ((loadedExcel raw nr cc).cols.any fun c => matchesSuffix c.1) = true := by
  obtain ⟨s, hs, hms⟩ := mangle_dup_suffix raw hnd
  rw [List.any_eq_true]
  have hml : (mangle raw).length ≤ cc.length := by
    rw [mangle_length]
    exact hlen
  have hmap : ((mangle raw).zip cc).map Prod.fst = mangle raw := List.map_fst_zip _ _ hml
  have hsm : s ∈ ((mangle raw).zip cc).map Prod.fst := by
    rw [hmap]
    exact hs
  obtain ⟨c, hc, hceq⟩ := List.mem_map.mp hsm
  refine ⟨c, hc, ?_⟩
  rw [hceq]
  exact hms

/-- C1 amended: under the check policy a duplicated raw header always
aborts with DuplicateColumnError, but the error carries the fixed message
Duplicate column names detected., which does not list the duplicated
name(s); no metadata is returned; for CSV the failure precedes the full
parse and the loader state is untouched, while for spreadsheets the full
sheet is parsed and retained in the loader state before the failure.  The
CSV condition is that the first candidate encoding that decodes the file
yields a raw header with a repeated name; the spreadsheet condition is a
sheet whose raw first row has a repeated name, loaded through the
spec-modelled auto-suffixing of the external table loader. -/
theorem c1_amended :
    (∀ (f : FSFile) (mb : Nat),
      f.fileExists = true → fileSize f ≠ 0 → fileSize f ≤ mb * 1024 * 1024 →
      extOf f.path = "csv" → loopHeaderDup f.bytes encodings = true →
      validateAndLoad (initLoader f mb) "check"
        = (Except.error (PyExc.duplicateColumnError "Duplicate column names detected."),
           initLoader f mb))
    ∧ (∀ (f : FSFile) (mb : Nat) (raw : List String) (nr : Nat) (cc : List (List PyVal)),
      f.fileExists = true → fileSize f ≠ 0 → fileSize f ≤ mb * 1024 * 1024 →
      (extOf f.path = "xlsx" ∨ extOf f.path = "xls") →
      f.excel = ExcelRead.ok (loadedExcel raw nr cc) →
      raw.length ≤ cc.length → ¬ raw.Nodup →
      validateAndLoad (initLoader f mb) "check"
        = (Except.error (PyExc.duplicateColumnError "Duplicate column names detected."),
           { initLoader f mb with df := some (loadedExcel raw nr cc) })) := by
  constructor
  · intro f mb hex hsz hlim hext hdup
    have hloop := readCsvLoop_dup f.bytes encodings hdup
    have hfin : finalize (checkMixed (initLoader f mb)) = Except.ok () :=
      finalize_checkMixed_none _ rfl
    have hbas : basicValidation (checkMixed (initLoader f mb)) = Except.ok () := by
      rw [basicValidation_checkMixed]
      exact basicValidation_ok (initLoader f mb) hex hsz hlim
    have hread : readFileSt (checkMixed (initLoader f mb)) "check"
        = (Except.error (PyExc.duplicateColumnError "Duplicate column names detected."),
           checkMixed (initLoader f mb)) := by
      unfold readFileSt
      rw [if_pos (show extOf (checkMixed (initLoader f mb)).file.path = "csv" from hext)]
      unfold csvBranch
      rw [show (checkMixed (initLoader f mb)).file.bytes = f.bytes from rfl, hloop]
    unfold validateAndLoad
    dsimp only
    rw [hfin, hbas, hread]
    exact rfl
  · intro f mb raw nr cc hex hsz hlim hext hxl hlen hnd
    have hany := loadedExcel_any_suffix raw nr cc hlen hnd
    have hfin : finalize (checkMixed (initLoader f mb)) = Except.ok () :=
      finalize_checkMixed_none _ rfl
    have hbas : basicValidation (checkMixed (initLoader f mb)) = Except.ok () := by
      rw [basicValidation_checkMixed]
      exact basicValidation_ok (initLoader f mb) hex hsz hlim
    have hread : readFileSt (checkMixed (initLoader f mb)) "check"
        = (Except.error (PyExc.duplicateColumnError "Duplicate column names detected."),
           { checkMixed (initLoader f mb) with df := some (loadedExcel raw nr cc) }) := by
      unfold readFileSt
      have hnc : extOf (checkMixed (initLoader f mb)).file.path ≠ "csv" := by
        rcases hext with h | h <;> rw [show extOf (checkMixed (initLoader f mb)).file.path
          = extOf f.path from rfl, h] <;> decide
      have hext2 : extOf (checkMixed (initLoader f mb)).file.path = "xlsx"
          ∨ extOf (checkMixed (initLoader f mb)).file.path = "xls" := hext
      rw [if_neg hnc, if_pos hext2]
      unfold excelBranch
      rw [show (checkMixed (initLoader f mb)).file.excel = f.excel from rfl, hxl]
      dsimp only
      rw [if_pos ⟨rfl, hany⟩]
    unfold validateAndLoad
    dsimp only
    rw [hfin, hbas, hread]
    exact rfl

/-- C1 witness: a CSV whose raw header repeats the name zz, and a
spreadsheet whose raw first row repeats the name a, both abort under check
with the fixed duplicate message. -/
theorem c1_amended_witness :
    validateAndLoad (initLoader (mkCsvFile "d.csv" (utf8Encode "zz,zz\n1,2\n")) 50) "check"
      = (Except.error (PyExc.duplicateColumnError "Duplicate column names detected."),
         initLoader (mkCsvFile "d.csv" (utf8Encode "zz,zz\n1,2\n")) 50)
    ∧ validateAndLoad
        (initLoader (mkXlsxFile "t.xlsx"
          (loadedExcel ["a", "a"] 1 [[PyVal.vInt 1], [PyVal.vInt 2]])) 50) "check"
      = (Except.error (PyExc.duplicateColumnError "Duplicate column names detected."),
         { initLoader (mkXlsxFile "t.xlsx"
             (loadedExcel ["a", "a"] 1 [[PyVal.vInt 1], [PyVal.vInt 2]])) 50 with
           df := some (loadedExcel ["a", "a"] 1 [[PyVal.vInt 1], [PyVal.vInt 2]]) }) :=
  ⟨c1_amended.1 (mkCsvFile "d.csv" (utf8Encode "zz,zz\n1,2\n")) 50
      (by decide) (by decide) (by decide) (by decide) (by decide),
   c1_amended.2 (mkXlsxFile "t.xlsx" (loadedExcel ["a", "a"] 1 [[PyVal.vInt 1], [PyVal.vInt 2]]))
      50 ["a", "a"] 1 [[PyVal.vInt 1], [PyVal.vInt 2]]
      (by decide) (by decide) (by decide) (Or.inl (by decide)) (by decide) (by decide)
      (by decide)⟩

/-- C1 counterexample: the claim as stated is false in two respects.  The
duplicate failure message is the constant Duplicate column names detected.;
for the header zz,zz the duplicated name zz does not occur in it, so the
error does not list the duplicated name(s).  And for a spreadsheet the full
parse does happen before the failure: after the failed check run the loader
retains the fully loaded sheet. -/
theorem c1_counterexample :
    (validateAndLoad (initLoader (mkCsvFile "d.csv" (utf8Encode "zz,zz\n1,2\n")) 50) "check").1
      = Except.error (PyExc.duplicateColumnError "Duplicate column names detected.")
    ∧ hasSubList ("Duplicate column names detected.").data ("zz").data = false
    ∧ ((validateAndLoad
          (initLoader (mkXlsxFile "t.xlsx"
            (loadedExcel ["a", "a"] 1 [[PyVal.vInt 1], [PyVal.vInt 2]])) 50) "check").2).df
      = some (loadedExcel ["a", "a"] 1 [[PyVal.vInt 1], [PyVal.vInt 2]]) := by
  decide

/- ================================================================
   C2: keep_first and the distinct-name count
   ================================================================ -/

lemma card_insert_erase (S : Finset String) (n : String) :
    (insert n S).card = 1 + (S.erase n).card := by
  by_cases hm : n ∈ S
  · rw [Finset.insert_eq_self.mpr hm, Finset.card_erase_of_mem hm]
    have h1 : 1 ≤ S.card := Finset.card_pos.mpr ⟨n, hm⟩
    omega
  · rw [Finset.card_insert_of_not_mem hm, Finset.erase_eq_of_not_mem hm]
    omega

lemma toFinset_filter_ne (xs : List String) (n : String) :
    ((xs.filter fun x => !decide (x = n)).toFinset) = xs.toFinset.erase n := by
  rw [List.toFinset_filter, ← Finset.filter_ne' xs.toFinset n]
  apply Finset.filter_congr
  intro x _
  simp

lemma filter_notmem_cons (rest seen : List String) (n : String) :
    (rest.filter fun x => !decide (x ∈ n :: seen))
      = ((rest.filter fun x => !decide (x ∈ seen)).filter fun x => !decide (x = n)) := by
  rw [List.filter_filter]
  apply List.filter_congr
  intro x _
  by_cases h1 : x = n <;> by_cases h2 : x ∈ seen <;> simp [h1, h2, List.mem_cons]

lemma keptGo_card : ∀ (l seen : List String), (∀ x ∈ l, matchesSuffix x = false) →
    ((mangleGo seen l).filter fun s => !matchesSuffix s).length
      = ((l.filter fun n => !decide (n ∈ seen)).toFinset).card := by
  intro l
  induction l with
  | nil => intro seen _; rfl
  | cons n rest ih =>
    intro seen h
    have hhead : matchesSuffix n = false := h n (List.mem_cons_self n rest)
    have hrest : ∀ x ∈ rest, matchesSuffix x = false :=
      fun x hx => h x (List.mem_cons_of_mem n hx)
    rw [mangleGo]
    by_cases hn : seen.count n = 0
    · have hnm : n ∉ seen := List.count_eq_zero.mp hn
      rw [if_pos hn, List.filter_cons, List.filter_cons]
      rw [hhead]
      simp only [Bool.not_false, if_true]
      have hq : (!decide (n ∈ seen)) = true := by simp [hnm]
      rw [hq]
      simp only [if_true]
      rw [List.length_cons, ih (n :: seen) hrest, filter_notmem_cons,
        List.toFinset_cons, toFinset_filter_ne, card_insert_erase]
      omega
    · have hnm : n ∈ seen := by
        by_contra hc
        exact hn (List.count_eq_zero.mpr hc)
      rw [if_neg hn, List.filter_cons, List.filter_cons]
      rw [matchesSuffix_suffixed n (seen.count n)]
      simp only [Bool.not_true, Bool.false_eq_true, if_false]
      have hq : (!decide (n ∈ seen)) = false := by simp [hnm]
      rw [hq]
      simp only [Bool.false_eq_true, if_false]
      rw [ih (n :: seen) hrest]
      congr 1
      apply congrArg
      apply List.filter_congr
      intro x _
      by_cases h1 : x = n
      · simp [h1, hnm, List.mem_cons]
      · simp [h1, List.mem_cons]

lemma mangle_keep_first_card (hdr : List String) (h : ∀ x ∈ hdr, matchesSuffix x = false) :
    ((mangle hdr).filter fun s => !matchesSuffix s).length = hdr.dedup.length := by
  have hk := keptGo_card hdr [] h
  rw [mangle, hk]
  have hf : (hdr.filter fun n => !decide (n ∈ ([] : List String))) = hdr := by
    apply List.filter_eq_self.mpr
    intro a _
    simp
  rw [hf, List.card_toFinset]

lemma pdReadCsv_ok_names (text : String) (hline : String) (rest : List String) (t : Table)
    (hsplit : splitLines text = hline :: rest) (hok : pdReadCsv text = Except.ok t) :
    t.cols.map Prod.fst = mangle (fieldsOf hline) ∧ t.nrows = rest.length
    ∧ t.cols.length = (mangle (fieldsOf hline)).length := by
  unfold pdReadCsv at hok
  rw [hsplit] at hok
  dsimp only at hok
  split at hok
  · cases hok
  · have hin := Except.ok.inj hok
    rw [← hin]
    refine ⟨?_, by rw [List.length_map], ?_⟩
    · rw [List.map_fst_zip]
      rw [List.length_map, List.length_range]
    · rw [List.length_zip, List.length_map, List.length_range, min_self]

lemma validate_csv_ok (f : FSFile) (mb : Nat) (action : String) (cs : List Char) (t : Table)
    (hex : f.fileExists = true) (hsz : fileSize f ≠ 0) (hlim : fileSize f ≤ mb * 1024 * 1024)
    (hext : extOf f.path = "csv")
    (hdec : decodeBytes Enc.utf8 f.bytes = some cs)
    (hh : headerCheck action (String.mk cs) = Except.ok ())
    (hp : pdReadCsv (String.mk cs) = Except.ok t)
    (hnr : (if action = "keep_first" then dropSuffixCols t else t).nrows ≠ 0) :
    validateAndLoad (initLoader f mb) action
      = (Except.ok (assembleMeta (checkMixed { checkMixed (initLoader f mb) with
            df := some (if action = "keep_first" then dropSuffixCols t else t) })),
         checkMixed { checkMixed (initLoader f mb) with
            df := some (if action = "keep_first" then dropSuffixCols t else t) }) := by
  have hloop := readCsvLoop_utf8_ok action f.bytes cs t hdec hh hp
  have hfin : finalize (checkMixed (initLoader f mb)) = Except.ok () :=
    finalize_checkMixed_none _ rfl
  have hbas : basicValidation (checkMixed (initLoader f mb)) = Except.ok () := by
    rw [basicValidation_checkMixed]
    exact basicValidation_ok (initLoader f mb) hex hsz hlim
  have hread : readFileSt (checkMixed (initLoader f mb)) action
      = (Except.ok (), { checkMixed (initLoader f mb) with
          df := some (if action = "keep_first" then dropSuffixCols t else t) }) := by
    unfold readFileSt
    rw [if_pos (show extOf (checkMixed (initLoader f mb)).file.path = "csv" from hext)]
    unfold csvBranch
    rw [show (checkMixed (initLoader f mb)).file.bytes = f.bytes from rfl, hloop]
  have hfin2 : finalize (checkMixed { checkMixed (initLoader f mb) with
      df := some (if action = "keep_first" then dropSuffixCols t else t) }) = Except.ok () := by
    unfold finalize
    rw [checkMixed_df]
    dsimp only
    rw [if_neg hnr]
  unfold validateAndLoad
  dsimp only
  rw [hfin, hbas, hread]
  dsimp only
  rw [hfin2]

lemma validate_excel_ok (f : FSFile) (mb : Nat) (action : String) (t : Table)
    (hex : f.fileExists = true) (hsz : fileSize f ≠ 0) (hlim : fileSize f ≤ mb * 1024 * 1024)
    (hext : extOf f.path = "xlsx" ∨ extOf f.path = "xls")
    (hxl : f.excel = ExcelRead.ok t) (hact : action ≠ "check")
    (hnr : (if action = "keep_first" then dropSuffixCols t else t).nrows ≠ 0) :
    validateAndLoad (initLoader f mb) action
      = (Except.ok (assembleMeta (checkMixed { checkMixed (initLoader f mb) with
            df := some (if action = "keep_first" then dropSuffixCols t else t) })),
         checkMixed { checkMixed (initLoader f mb) with
            df := some (if action = "keep_first" then dropSuffixCols t else t) }) := by
  have hfin : finalize (checkMixed (initLoader f mb)) = Except.ok () :=
    finalize_checkMixed_none _ rfl
  have hbas : basicValidation (checkMixed (initLoader f mb)) = Except.ok () := by
    rw [basicValidation_checkMixed]
    exact basicValidation_ok (initLoader f mb) hex hsz hlim
  have hread : readFileSt (checkMixed (initLoader f mb)) action
      = (Except.ok (), { checkMixed (initLoader f mb) with
          df := some (if action = "keep_first" then dropSuffixCols t else t) }) := by
    unfold readFileSt
    have hnc : extOf (checkMixed (initLoader f mb)).file.path ≠ "csv" := by
      rcases hext with h | h <;> rw [show extOf (checkMixed (initLoader f mb)).file.path
        = extOf f.path from rfl, h] <;> decide
    have hext2 : extOf (checkMixed (initLoader f mb)).file.path = "xlsx"
        ∨ extOf (checkMixed (initLoader f mb)).file.path = "xls" := hext
    rw [if_neg hnc, if_pos hext2]
    unfold excelBranch
    rw [show (checkMixed (initLoader f mb)).file.excel = f.excel from rfl, hxl]
    dsimp only
    rw [if_neg (fun hc => hact hc.1)]
    by_cases hkf : action = "keep_first"
    · rw [if_pos hkf, if_pos hkf]
    · rw [if_neg hkf, if_neg hkf]
  have hfin2 : finalize (checkMixed { checkMixed (initLoader f mb) with
      df := some (if action = "keep_first" then dropSuffixCols t else t) }) = Except.ok () := by
    unfold finalize
    rw [checkMixed_df]
    dsimp only
    rw [if_neg hnr]
  unfold validateAndLoad
  dsimp only
  rw [hfin, hbas, hread]
  dsimp only
  rw [hfin2]

lemma assembleMeta_df (L : Loader) (t : Table) (h : L.df = some t) :
    (assembleMeta L).columns = t.cols.length
    ∧ (assembleMeta L).column_names = t.cols.map Prod.fst
    ∧ (assembleMeta L).rows = t.nrows := by
  unfold assembleMeta
  rw [h]
  exact ⟨rfl, rfl, rfl⟩

lemma dropSuffix_len (t : Table) :
    (dropSuffixCols t).cols.length
      = ((t.cols.map Prod.fst).filter fun s => !matchesSuffix s).length := by
  unfold dropSuffixCols
  dsimp only
  rw [List.filter_map, List.length_map]
  rfl

lemma dropSuffix_names (t : Table) :
    (dropSuffixCols t).cols.map Prod.fst
      = ((t.cols.map Prod.fst).filter fun s => !matchesSuffix s) := by
  unfold dropSuffixCols
  dsimp only
  rw [List.filter_map]
  rfl

/-- C2 amended: under keep_first the resulting columns are exactly the
loaded columns whose (auto-disambiguated) name does not match the
dot-digits suffix pattern — so, unconditionally, no resulting name matches
it; the resulting column count equals the number of distinct raw header
names provided no raw header name itself matches the pattern.  Without
that proviso the count part of the original claim fails (see the
counterexample: a legitimately named b.1 column is dropped). -/
theorem c2_amended :
    (∀ (f : FSFile) (mb : Nat) (cs : List Char) (t : Table) (hline : String)
        (rest : List String),
      f.fileExists = true → fileSize f ≠ 0 → fileSize f ≤ mb * 1024 * 1024 →
      extOf f.path = "csv" →
      decodeBytes Enc.utf8 f.bytes = some cs →
      splitLines (String.mk cs) = hline :: rest →
      pdReadCsv (String.mk cs) = Except.ok t →
      t.nrows ≠ 0 →
      ∃ md, (validateAndLoad (initLoader f mb) "keep_first").1 = Except.ok md
        ∧ md.column_names = (mangle (fieldsOf hline)).filter (fun s => !matchesSuffix s)
        ∧ md.column_names.all (fun s => !matchesSuffix s) = true
        ∧ ((∀ x ∈ fieldsOf hline, matchesSuffix x = false) →
            md.columns = (fieldsOf hline).dedup.length))
    ∧ (∀ (f : FSFile) (mb : Nat) (raw : List String) (nr : Nat) (cc : List (List PyVal)),
      f.fileExists = true → fileSize f ≠ 0 → fileSize f ≤ mb * 1024 * 1024 →
      (extOf f.path = "xlsx" ∨ extOf f.path = "xls") →
      f.excel = ExcelRead.ok (loadedExcel raw nr cc) →
      cc.length = raw.length → nr ≠ 0 →
      ∃ md, (validateAndLoad (initLoader f mb) "keep_first").1 = Except.ok md
        ∧ md.column_names = (mangle raw).filter (fun s => !matchesSuffix s)
        ∧ md.column_names.all (fun s => !matchesSuffix s) = true
        ∧ ((∀ x ∈ raw, matchesSuffix x = false) →
            md.columns = raw.dedup.length)) := by
  constructor
  · intro f mb cs t hline rest hex hsz hlim hext hdec hsplit hp hnr
    have hh : headerCheck "keep_first" (String.mk cs) = Except.ok () :=
      headerCheck_not_check _ _ (by decide)
    have hnr2 : (if "keep_first" = "keep_first" then dropSuffixCols t else t).nrows ≠ 0 := by
      rw [if_pos rfl]
      exact hnr
    have hv := validate_csv_ok f mb "keep_first" cs t hex hsz hlim hext hdec hh hp hnr2
    rw [if_pos rfl] at hv
    obtain ⟨hnames, hrows, hcols⟩ := pdReadCsv_ok_names (String.mk cs) hline rest t hsplit hp
    have hdf : (checkMixed { checkMixed (initLoader f mb) with
        df := some (dropSuffixCols t) }).df = some (dropSuffixCols t) :=
      checkMixed_df _
    obtain ⟨hc1, hc2, hc3⟩ := assembleMeta_df _ _ hdf
    refine ⟨_, by rw [hv], ?_, ?_, ?_⟩
    · rw [hc2, dropSuffix_names, hnames]
    · rw [hc2, dropSuffix_names, List.all_eq_true]
      intro s hs
      exact (List.mem_filter.mp hs).2
    · intro hns
      rw [hc1, dropSuffix_len, hnames, mangle_keep_first_card (fieldsOf hline) hns]
  · intro f mb raw nr cc hex hsz hlim hext hxl hlen hnr
    have hnr2 : (if "keep_first" = "keep_first"
        then dropSuffixCols (loadedExcel raw nr cc) else loadedExcel raw nr cc).nrows ≠ 0 := by
      rw [if_pos rfl]
      exact hnr
    have hv := validate_excel_ok f mb "keep_first" (loadedExcel raw nr cc) hex hsz hlim hext hxl
      (by decide) hnr2
    rw [if_pos rfl] at hv
    have hnames : (loadedExcel raw nr cc).cols.map Prod.fst = mangle raw := by
      unfold loadedExcel
      dsimp only
      exact List.map_fst_zip _ _ (by rw [mangle_length, hlen])
    have hdf : (checkMixed { checkMixed (initLoader f mb) with
        df := some (dropSuffixCols (loadedExcel raw nr cc)) }).df
        = some (dropSuffixCols (loadedExcel raw nr cc)) :=
      checkMixed_df _
    obtain ⟨hc1, hc2, hc3⟩ := assembleMeta_df _ _ hdf
    refine ⟨_, by rw [hv], ?_, ?_, ?_⟩
    · rw [hc2, dropSuffix_names, hnames]
    · rw [hc2, dropSuffix_names, List.all_eq_true]
      intro s hs
      exact (List.mem_filter.mp hs).2
    · intro hns
      rw [hc1, dropSuffix_len, hnames, mangle_keep_first_card raw hns]

/-- C2 witness: the duplicated header a,a of the repository test loads
under keep_first with one column, the number of distinct raw names, and no
auto-suffixed name remains. -/
theorem c2_amended_witness :
    ((∀ x ∈ fieldsOf "a,a", matchesSuffix x = false)
      ∧ (fieldsOf "a,a").dedup.length = 1)
    ∧ ∃ md, (validateAndLoad (initLoader (mkCsvFile "d.csv" (utf8Encode "a,a\n1,2\n")) 50)
        "keep_first").1 = Except.ok md
      ∧ md.column_names = (mangle (fieldsOf "a,a")).filter (fun s => !matchesSuffix s)
      ∧ md.column_names.all (fun s => !matchesSuffix s) = true
      ∧ ((∀ x ∈ fieldsOf "a,a", matchesSuffix x = false) →
          md.columns = (fieldsOf "a,a").dedup.length) :=
  ⟨⟨by decide, by decide⟩,
   c2_amended.1 (mkCsvFile "d.csv" (utf8Encode "a,a\n1,2\n")) 50 ("a,a\n1,2\n").data
     { nrows := 1, cols := [("a", [PyVal.vInt 1]), ("a.1", [PyVal.vInt 2])] } "a,a" ["1,2"]
     (by decide) (by decide) (by decide) (by decide) (by decide) (by decide) (by decide)
     (by decide)⟩

/-- C2 counterexample: for the raw header a,b.1 (two distinct names, no
duplicates) the keep_first run returns one column, because the legitimately
named column b.1 matches the auto-suffix pattern and is dropped; the claim
says the resulting column count equals the number of distinct raw names. -/
theorem c2_counterexample :
    ((validateAndLoad (initLoader (mkCsvFile "d.csv" (utf8Encode "a,b.1\n1,2\n")) 50)
        "keep_first").1.toOption.map Metadata.columns) = some 1
    ∧ (fieldsOf "a,b.1").dedup.length = 2
    ∧ (1 : Nat) ≠ 2 := by
  decide

/- ================================================================
   C3: rename and the positional suffix scheme
   ================================================================ -/

lemma count_take_lt (raw : List String) (i j : Nat) (hi : i < raw.length)
    (_hj : j < raw.length) (hij : i < j) (hname : raw.getD i "" = raw.getD j "") :
    (raw.take i).count (raw.getD j "") < (raw.take j).count (raw.getD j "") := by
  have hget : raw[i]? = some (raw.getD i "") := by
    rw [List.getElem?_eq_getElem hi, List.getD_eq_getElem raw "" hi]
  have hstep : (raw.take (i + 1)).count (raw.getD j "")
      = (raw.take i).count (raw.getD j "") + 1 := by
    rw [List.take_succ, hget]
    rw [List.count_append, hname]
    simp [List.count_singleton]
  have hmono : (raw.take (i + 1)).count (raw.getD j "")
      ≤ (raw.take j).count (raw.getD j "") := by
    have htt : (raw.take j).take (i + 1) = raw.take (i + 1) := by
      rw [List.take_take]
      congr 1
      omega
    have hsub : List.Sublist (raw.take (i + 1)) (raw.take j) := by
      rw [← htt]
      exact (List.take_prefix (i + 1) (raw.take j)).sublist
    exact hsub.count_le _
  omega

lemma mangle_getD_distinct_lt (raw : List String) (i j : Nat) (hi : i < raw.length)
    (hj : j < raw.length) (hij : i < j) (hname : raw.getD i "" = raw.getD j "") :
    (mangle raw).getD i "" ≠ (mangle raw).getD j "" := by
  have hcount := count_take_lt raw i j hi hj hij hname
  rw [mangle_getD raw i hi, mangle_getD raw j hj, hname]
  have hkj : (raw.take j).count (raw.getD j "") ≠ 0 := by omega
  rw [if_neg hkj]
  by_cases hki : (raw.take i).count (raw.getD j "") = 0
  · rw [if_pos hki]
    intro h
    exact suffixed_ne _ _ h.symm
  · rw [if_neg hki]
    intro h
    have := suffix_inj _ h
    omega

lemma mangle_getD_distinct (raw : List String) (i j : Nat) (hi : i < raw.length)
    (hj : j < raw.length) (hname : raw.getD i "" = raw.getD j "") (hij : i ≠ j) :
    (mangle raw).getD i "" ≠ (mangle raw).getD j "" := by
  rcases Nat.lt_or_ge i j with hlt | hge
  · exact mangle_getD_distinct_lt raw i j hi hj hlt hname
  · have hlt : j < i := by omega
    exact fun h => (mangle_getD_distinct_lt raw j i hj hi hlt hname.symm) h.symm

/-- C3: under rename the loaded table keeps one column per raw header
token (count preserved), the resulting names are exactly the
positional-suffix renaming of the raw header, and that renaming keeps the
first occurrence of each name unsuffixed, renames occurrence number k to
name.k, and gives distinct names within each duplicate group, with the
unsuffixed name unique per group.  Holds for the CSV reader and the
spreadsheet reader. -/
theorem c3_rename_columns :
    (∀ (f : FSFile) (mb : Nat) (cs : List Char) (t : Table) (hline : String)
        (rest : List String),
      f.fileExists = true → fileSize f ≠ 0 → fileSize f ≤ mb * 1024 * 1024 →
      extOf f.path = "csv" →
      decodeBytes Enc.utf8 f.bytes = some cs →
      splitLines (String.mk cs) = hline :: rest →
      pdReadCsv (String.mk cs) = Except.ok t →
      t.nrows ≠ 0 →
      ∃ md, (validateAndLoad (initLoader f mb) "rename").1 = Except.ok md
        ∧ md.column_names = mangle (fieldsOf hline)
        ∧ md.columns = (fieldsOf hline).length)
    ∧ (∀ (f : FSFile) (mb : Nat) (raw : List String) (nr : Nat) (cc : List (List PyVal)),
      f.fileExists = true → fileSize f ≠ 0 → fileSize f ≤ mb * 1024 * 1024 →
      (extOf f.path = "xlsx" ∨ extOf f.path = "xls") →
      f.excel = ExcelRead.ok (loadedExcel raw nr cc) →
      cc.length = raw.length → nr ≠ 0 →
      ∃ md, (validateAndLoad (initLoader f mb) "rename").1 = Except.ok md
        ∧ md.column_names = mangle raw
        ∧ md.columns = raw.length)
    ∧ (∀ (raw : List String) (i j : Nat), i < raw.length → j < raw.length →
        (mangle raw).length = raw.length
        ∧ ((raw.take i).count (raw.getD i "") = 0 →
            (mangle raw).getD i "" = raw.getD i "")
        ∧ (0 < (raw.take i).count (raw.getD i "") →
            (mangle raw).getD i ""
              = raw.getD i "" ++ "." ++ natStr ((raw.take i).count (raw.getD i "")))
        ∧ (raw.getD i "" = raw.getD j "" → i ≠ j →
            (mangle raw).getD i "" ≠ (mangle raw).getD j "")
        ∧ (raw.getD i "" = raw.getD j "" →
            (mangle raw).getD i "" = raw.getD i "" →
            (mangle raw).getD j "" = raw.getD j "" → i = j)) := by
  refine ⟨?_, ?_, ?_⟩
  · intro f mb cs t hline rest hex hsz hlim hext hdec hsplit hp hnr
    have hh : headerCheck "rename" (String.mk cs) = Except.ok () :=
      headerCheck_not_check _ _ (by decide)
    have hnr2 : (if "rename" = "keep_first" then dropSuffixCols t else t).nrows ≠ 0 := by
      rw [if_neg (by decide)]
      exact hnr
    have hv := validate_csv_ok f mb "rename" cs t hex hsz hlim hext hdec hh hp hnr2
    rw [if_neg (show ¬("rename" = "keep_first") by decide)] at hv
    obtain ⟨hnames, hrows, hcols⟩ := pdReadCsv_ok_names (String.mk cs) hline rest t hsplit hp
    have hdf : (checkMixed { checkMixed (initLoader f mb) with df := some t }).df = some t :=
      checkMixed_df _
    obtain ⟨hc1, hc2, hc3⟩ := assembleMeta_df _ _ hdf
    refine ⟨_, by rw [hv], ?_, ?_⟩
    · rw [hc2, hnames]
    · rw [hc1, hcols, mangle_length]
  · intro f mb raw nr cc hex hsz hlim hext hxl hlen hnr
    have hnr2 : (if "rename" = "keep_first"
        then dropSuffixCols (loadedExcel raw nr cc) else loadedExcel raw nr cc).nrows ≠ 0 := by
      rw [if_neg (by decide)]
      exact hnr
    have hv := validate_excel_ok f mb "rename" (loadedExcel raw nr cc) hex hsz hlim hext hxl
      (by decide) hnr2
    rw [if_neg (show ¬("rename" = "keep_first") by decide)] at hv
    have hnames : (loadedExcel raw nr cc).cols.map Prod.fst = mangle raw := by
      unfold loadedExcel
      dsimp only
      exact List.map_fst_zip _ _ (by rw [mangle_length, hlen])
    have hdf : (checkMixed { checkMixed (initLoader f mb) with
        df := some (loadedExcel raw nr cc) }).df = some (loadedExcel raw nr cc) :=
      checkMixed_df _
    obtain ⟨hc1, hc2, hc3⟩ := assembleMeta_df _ _ hdf
    refine ⟨_, by rw [hv], ?_, ?_⟩
    · rw [hc2, hnames]
    · rw [hc1]
      unfold loadedExcel
      dsimp only
      rw [List.length_zip, mangle_length, hlen, min_self]
  · intro raw i j hi hj
    refine ⟨mangle_length raw, ?_, ?_, fun hname hij => mangle_getD_distinct raw i j hi hj hname hij, ?_⟩
    · intro h0
      rw [mangle_getD raw i hi, if_pos h0]
    · intro hpos
      rw [mangle_getD raw i hi, if_neg (by omega)]
    · intro hname hui huj
      by_contra hij
      have hne := mangle_getD_distinct raw i j hi hj hname hij
      rw [hui, huj, hname] at hne
      exact hne rfl

/-- C3 witness: the duplicated header a,a loads under rename with both
columns kept, named a and a.1; the characterization holds at the concrete
group positions. -/
theorem c3_rename_columns_witness :
    (∃ md, (validateAndLoad (initLoader (mkCsvFile "d.csv" (utf8Encode "a,a\n1,2\n")) 50)
        "rename").1 = Except.ok md
      ∧ md.column_names = mangle (fieldsOf "a,a")
      ∧ md.columns = (fieldsOf "a,a").length)
    ∧ mangle ["a", "a"] = ["a", "a.1"] :=
  ⟨c3_rename_columns.1 (mkCsvFile "d.csv" (utf8Encode "a,a\n1,2\n")) 50 ("a,a\n1,2\n").data
      { nrows := 1, cols := [("a", [PyVal.vInt 1]), ("a.1", [PyVal.vInt 2])] } "a,a" ["1,2"]
      (by decide) (by decide) (by decide) (by decide) (by decide) (by decide) (by decide)
      (by decide),
   by decide⟩

/- ================================================================
   C7: encoding invariance
   ================================================================ -/

lemma utf8EncodeChar_ascii (c : Char) (h : c.toNat < 128) : utf8EncodeChar c = [c.toNat] := by
  unfold utf8EncodeChar
  rw [if_pos h]

lemma optMap_latin1_ascii : ∀ (cs : List Char), (∀ c ∈ cs, c.toNat < 128) →
    optMap latin1EncodeChar cs = some ((cs.map utf8EncodeChar).foldr (· ++ ·) []) := by
  intro cs
  induction cs with
  | nil => intro _; rfl
  | cons c l ih =>
    intro h
    have hc := h c (List.mem_cons_self c l)
    rw [optMap]
    rw [show latin1EncodeChar c = some c.toNat from by
      unfold latin1EncodeChar
      rw [if_pos (by omega)]]
    rw [ih (fun x hx => h x (List.mem_cons_of_mem c hx))]
    dsimp only [Option.map]
    rw [List.map_cons, List.foldr_cons, utf8EncodeChar_ascii c hc]
    rfl

lemma optMap_cp1252_ascii : ∀ (cs : List Char), (∀ c ∈ cs, c.toNat < 128) →
    optMap cp1252EncodeChar cs = some ((cs.map utf8EncodeChar).foldr (· ++ ·) []) := by
  intro cs
  induction cs with
  | nil => intro _; rfl
  | cons c l ih =>
    intro h
    have hc := h c (List.mem_cons_self c l)
    rw [optMap]
    rw [show cp1252EncodeChar c = some c.toNat from by
      unfold cp1252EncodeChar
      dsimp only
      rw [if_pos hc]]
    rw [ih (fun x hx => h x (List.mem_cons_of_mem c hx))]
    dsimp only [Option.map]
    rw [List.map_cons, List.foldr_cons, utf8EncodeChar_ascii c hc]
    rfl

lemma utf8Encode_flat_ascii : ∀ (cs : List Char), (∀ c ∈ cs, c.toNat < 128) →
    (cs.map utf8EncodeChar).foldr (· ++ ·) [] = cs.map Char.toNat := by
  intro cs
  induction cs with
  | nil => intro _; rfl
  | cons c l ih =>
    intro h
    rw [List.map_cons, List.foldr_cons, utf8EncodeChar_ascii c (h c (List.mem_cons_self c l)),
      ih (fun x hx => h x (List.mem_cons_of_mem c hx)), List.map_cons]
    rfl

lemma utf8Decode_ascii : ∀ (cs : List Char), (∀ c ∈ cs, c.toNat < 128) →
    utf8Decode (cs.map Char.toNat) = some cs := by
  intro cs
  induction cs with
  | nil => intro _; rfl
  | cons c l ih =>
    intro h
    have hc := h c (List.mem_cons_self c l)
    unfold utf8Decode
    rw [List.map_cons, List.length_cons]
    simp only [utf8DecodeAux]
    rw [if_pos hc]
    rw [show utf8DecodeAux (l.map Char.toNat).length (l.map Char.toNat)
        = utf8Decode (l.map Char.toNat) from rfl]
    rw [ih (fun x hx => h x (List.mem_cons_of_mem c hx))]
    dsimp only [Option.map]
    rw [Char.ofNat_toNat]

lemma utf8Decode_ff (bs : List Nat) : utf8Decode (255 :: bs) = none := by
  show utf8DecodeAux (255 :: bs).length (255 :: bs) = none
  rw [List.length_cons]
  simp only [utf8DecodeAux]
  norm_num

lemma utf16EncodeChar_ascii (c : Char) (h : c.toNat < 128) :
    utf16EncodeChar c = [c.toNat, 0] := by
  unfold utf16EncodeChar
  dsimp only
  rw [if_pos (by omega), Nat.mod_eq_of_lt (by omega), Nat.div_eq_of_lt (by omega)]

lemma utf16Units_ascii : ∀ (cs : List Char), (∀ c ∈ cs, c.toNat < 128) →
    utf16Units ((cs.map utf16EncodeChar).foldr (· ++ ·) []) = some (cs.map Char.toNat) := by
  intro cs
  induction cs with
  | nil => intro _; rfl
  | cons c l ih =>
    intro h
    have hc := h c (List.mem_cons_self c l)
    rw [List.map_cons, List.foldr_cons, utf16EncodeChar_ascii c hc, List.cons_append,
      List.cons_append, List.nil_append, utf16Units]
    rw [ih (fun x hx => h x (List.mem_cons_of_mem c hx))]
    dsimp only [Option.map]
    rw [List.map_cons]
    have hval : c.toNat % 256 + 256 * (0 % 256) = c.toNat := by
      rw [Nat.mod_eq_of_lt (show c.toNat < 256 by omega)]
      norm_num
    rw [hval]

lemma utf16_flat_len : ∀ (cs : List Char), (∀ c ∈ cs, c.toNat < 128) →
    ((cs.map utf16EncodeChar).foldr (· ++ ·) []).length = 2 * cs.length := by
  intro cs
  induction cs with
  | nil => intro _; rfl
  | cons c l ih =>
    intro h
    rw [List.map_cons, List.foldr_cons, utf16EncodeChar_ascii c (h c (List.mem_cons_self c l)),
      List.length_append, ih (fun x hx => h x (List.mem_cons_of_mem c hx)), List.length_cons]
    simp only [List.length_cons, List.length_nil]
    omega

lemma utf16Combine_ascii : ∀ (fuel : Nat) (cs : List Char), (∀ c ∈ cs, c.toNat < 128) →
    cs.length ≤ fuel → utf16Combine fuel (cs.map Char.toNat) = some cs := by
  intro fuel
  induction fuel with
  | zero =>
    intro cs h hlen
    cases cs with
    | nil => rfl
    | cons c l => simp at hlen
  | succ f ih =>
    intro cs h hlen
    cases cs with
    | nil => rfl
    | cons c l =>
      have hc := h c (List.mem_cons_self c l)
      rw [List.map_cons]
      simp only [utf16Combine]
      rw [if_pos (Or.inl (by omega))]
      rw [ih l (fun x hx => h x (List.mem_cons_of_mem c hx))
        (by simp only [List.length_cons] at hlen; omega)]
      dsimp only [Option.map]
      rw [Char.ofNat_toNat]

lemma utf16_roundtrip_ascii (s : String) (h : ∀ c ∈ s.data, c.toNat < 128) :
    utf16Decode (utf16Encode s) = some s.data := by
  unfold utf16Encode utf16Decode
  dsimp only
  rw [if_pos (⟨rfl, rfl⟩ : (255 : Nat) = 255 ∧ (254 : Nat) = 254)]
  rw [utf16Units_ascii s.data h, Option.some_bind]
  exact utf16Combine_ascii _ s.data h (by rw [utf16_flat_len s.data h]; omega)

lemma cp1252Char_id (b : Nat) (h : b < 128 ∨ (160 ≤ b ∧ b < 256)) :
    cp1252Char b = some (Char.ofNat (b % 256)) := by
  unfold cp1252Char
  rcases h with h | h
  · rw [if_pos h, Nat.mod_eq_of_lt (by omega)]
  · rw [if_neg (by omega), if_pos h, Nat.mod_eq_of_lt (by omega)]

lemma cp1252Decode_eq_latin1 : ∀ (bs : List Nat), (∀ b ∈ bs, b < 128 ∨ (160 ≤ b ∧ b < 256)) →
    cp1252Decode bs = some (latin1Decode bs) := by
  intro bs
  induction bs with
  | nil => intro _; rfl
  | cons b l ih =>
    intro h
    show optMap cp1252Char (b :: l) = _
    rw [optMap, cp1252Char_id b (h b (List.mem_cons_self b l))]
    rw [show optMap cp1252Char l = cp1252Decode l from rfl]
    rw [ih (fun x hx => h x (List.mem_cons_of_mem b hx))]
    rfl

lemma utf16_flat_bytes_lt : ∀ (cs : List Char), (∀ c ∈ cs, c.toNat < 128) →
    ∀ b ∈ (cs.map utf16EncodeChar).foldr (· ++ ·) [], b < 128 := by
  intro cs
  induction cs with
  | nil => intro _ b hb; cases hb
  | cons c l ih =>
    intro h b hb
    rw [List.map_cons, List.foldr_cons,
      utf16EncodeChar_ascii c (h c (List.mem_cons_self c l))] at hb
    rcases List.mem_append.mp hb with hb | hb
    · have hc := h c (List.mem_cons_self c l)
      rcases List.mem_cons.mp hb with hb | hb
      · omega
      · rw [List.mem_singleton.mp hb]
        omega
    · exact ih (fun x hx => h x (List.mem_cons_of_mem c hx)) b hb

lemma splitListOn_ne_nil (sep : Char) : ∀ (l : List Char), splitListOn sep l ≠ [] := by
  intro l
  cases l with
  | nil => exact fun h => List.noConfusion h
  | cons c cs =>
    rw [splitListOn]
    by_cases h : c = sep
    · rw [if_pos h]
      exact fun hc => List.noConfusion hc
    · rw [if_neg h]
      cases splitListOn sep cs with
      | nil => exact fun hc => List.noConfusion hc
      | cons g gs => exact fun hc => List.noConfusion hc

lemma splitListOn_cons_ne (sep c : Char) (l : List Char) (h : c ≠ sep) :
    ∃ g gs, splitListOn sep l = g :: gs ∧ splitListOn sep (c :: l) = (c :: g) :: gs := by
  cases hr : splitListOn sep l with
  | nil => exact absurd hr (splitListOn_ne_nil sep l)
  | cons g gs =>
    refine ⟨g, gs, rfl, ?_⟩
    rw [splitListOn]
    rw [hr, if_neg h]

lemma splitListOn_head_mem (sep x : Char) (hx : x ≠ sep) : ∀ (pre : List Char),
    (∀ c ∈ pre, c ≠ sep) → ∀ rest, x ∈ (splitListOn sep (pre ++ x :: rest)).headD [] := by
  intro pre
  induction pre with
  | nil =>
    intro _ rest
    obtain ⟨g, gs, _, h2⟩ := splitListOn_cons_ne sep x rest hx
    rw [List.nil_append, h2]
    simp only [List.headD_cons]
    exact List.mem_cons_self x g
  | cons a l ih =>
    intro h rest
    have ha : a ≠ sep := h a (List.mem_cons_self a l)
    obtain ⟨g, gs, h1, h2⟩ := splitListOn_cons_ne sep a (l ++ x :: rest) ha
    rw [List.cons_append, h2]
    simp only [List.headD_cons]
    have hx2 := ih (fun c hc => h c (List.mem_cons_of_mem a hc)) rest
    rw [h1] at hx2
    simp only [List.headD_cons] at hx2
    exact List.mem_cons_of_mem a hx2

lemma mk_cons_beq_empty (c : Char) (l : List Char) : ((String.mk (c :: l)) == "") = false := by
  rw [beq_eq_false_iff_ne]
  intro h0
  have h1 : c :: l = [] := congrArg String.data h0
  exact List.noConfusion h1

lemma headerCheck_nul (text : String) (hne : (text == "") = false)
    (hnul : (((strSplit text '\n').headD "").data.any fun c => c == Char.ofNat 0) = true) :
    headerCheck "check" text = Except.error (PyExc.otherError "line contains NUL") := by
  unfold headerCheck rawHeader
  rw [if_pos rfl, hne]
  simp only [Bool.false_eq_true, if_false]
  rw [hnul]
  simp only [if_true]

lemma readCsvLoop_utf16_check (text : String) (t : Table)
    (hb1 : decodeBytes Enc.utf8 (utf16Encode text) = none)
    (hl : headerCheck "check" (String.mk (latin1Decode (utf16Encode text)))
      = Except.error (PyExc.otherError "line contains NUL"))
    (hc : decodeBytes Enc.cp1252 (utf16Encode text) = some (latin1Decode (utf16Encode text)))
    (hu : decodeBytes Enc.utf16 (utf16Encode text) = some text.data)
    (hh : headerCheck "check" text = Except.ok ())
    (hp : pdReadCsv text = Except.ok t) :
    readCsvLoop "check" (utf16Encode text) encodings = Except.ok t := by
  have hh2 : headerCheck "check" (String.mk text.data) = Except.ok () := hh
  have hp2 : pdReadCsv (String.mk text.data) = Except.ok t := hp
  unfold encodings
  rw [readCsvLoop, hb1]
  rw [readCsvLoop]
  rw [show decodeBytes Enc.latin1 (utf16Encode text)
      = some (latin1Decode (utf16Encode text)) from rfl]
  dsimp only
  rw [hl]
  dsimp only
  rw [show ([Enc.cp1252, Enc.utf16] : List Enc).isEmpty = false from rfl]
  simp only [Bool.false_eq_true, if_false]
  rw [readCsvLoop, hc]
  dsimp only
  rw [hl]
  dsimp only
  rw [show ([Enc.utf16] : List Enc).isEmpty = false from rfl]
  simp only [Bool.false_eq_true, if_false]
  rw [readCsvLoop, hu]
  dsimp only
  rw [hh2]
  dsimp only
  rw [hp2]
  dsimp only
  rw [if_neg (show ¬("check" = "keep_first") by decide)]

lemma validate_csv_ok_of_loop (f : FSFile) (mb : Nat) (action : String) (t : Table)
    (hex : f.fileExists = true) (hsz : fileSize f ≠ 0) (hlim : fileSize f ≤ mb * 1024 * 1024)
    (hext : extOf f.path = "csv")
    (hloop : readCsvLoop action f.bytes encodings = Except.ok t)
    (hnr : t.nrows ≠ 0) :
    validateAndLoad (initLoader f mb) action
      = (Except.ok (assembleMeta (checkMixed { checkMixed (initLoader f mb) with df := some t })),
         checkMixed { checkMixed (initLoader f mb) with df := some t }) := by
  have hfin : finalize (checkMixed (initLoader f mb)) = Except.ok () :=
    finalize_checkMixed_none _ rfl
  have hbas : basicValidation (checkMixed (initLoader f mb)) = Except.ok () := by
    rw [basicValidation_checkMixed]
    exact basicValidation_ok (initLoader f mb) hex hsz hlim
  have hread : readFileSt (checkMixed (initLoader f mb)) action
      = (Except.ok (), { checkMixed (initLoader f mb) with df := some t }) := by
    unfold readFileSt
    rw [if_pos (show extOf (checkMixed (initLoader f mb)).file.path = "csv" from hext)]
    unfold csvBranch
    rw [show (checkMixed (initLoader f mb)).file.bytes = f.bytes from rfl, hloop]
  have hfin2 : finalize (checkMixed { checkMixed (initLoader f mb) with df := some t })
      = Except.ok () := by
    unfold finalize
    rw [checkMixed_df]
    dsimp only
    rw [if_neg hnr]
  unfold validateAndLoad
  dsimp only
  rw [hfin, hbas, hread]
  dsimp only
  rw [hfin2]
lemma validate_utf16_check_eq (p8 p16 : String) (mb : Nat) (text : String)
    (c0 : Char) (tl : List Char)
    (htd : text.data = c0 :: tl) (hc0 : c0 ≠ '\n')
    (hascii : ∀ c ∈ text.data, c.toNat < 128)
    (t : Table)
    (hh : headerCheck "check" text = Except.ok ())
    (hp : pdReadCsv text = Except.ok t) (hnr : t.nrows ≠ 0)
    (hext8 : extOf p8 = "csv") (hext16 : extOf p16 = "csv")
    (hlim8 : (utf8Encode text).length ≤ mb * 1024 * 1024)
    (hlim16 : (utf16Encode text).length ≤ mb * 1024 * 1024) :
    ∃ md8 md16 : Metadata,
      (validateAndLoad (initLoader (mkCsvFile p8 (utf8Encode text)) mb) "check").1
        = Except.ok md8
      ∧ (validateAndLoad (initLoader (mkCsvFile p16 (utf16Encode text)) mb) "check").1
        = Except.ok md16
      ∧ md8.rows = md16.rows ∧ md8.columns = md16.columns
      ∧ md8.column_names = md16.column_names := by
  have hc0a : c0.toNat < 128 := hascii c0 (by rw [htd]; exact List.mem_cons_self c0 tl)
  have hbytes : utf16Encode text = 255 :: 254 :: c0.toNat :: 0
      :: (tl.map utf16EncodeChar).foldr (· ++ ·) [] := by
    unfold utf16Encode
    rw [htd, List.map_cons, List.foldr_cons, utf16EncodeChar_ascii c0 hc0a]
    rfl
  have hchars : latin1Decode (utf16Encode text)
      = Char.ofNat (255 % 256) :: Char.ofNat (254 % 256) :: Char.ofNat (c0.toNat % 256)
        :: Char.ofNat (0 % 256)
        :: latin1Decode ((tl.map utf16EncodeChar).foldr (· ++ ·) []) := by
    rw [hbytes]
    rfl
  have hpre : ∀ c ∈ [Char.ofNat (255 % 256), Char.ofNat (254 % 256),
      Char.ofNat (c0.toNat % 256)], c ≠ '\n' := by
    intro c hcm
    rcases List.mem_cons.mp hcm with rfl | hcm
    · decide
    rcases List.mem_cons.mp hcm with rfl | hcm
    · decide
    rcases List.mem_cons.mp hcm with rfl | hcm
    · rw [Nat.mod_eq_of_lt (show c0.toNat < 256 by omega), Char.ofNat_toNat]
      exact hc0
    · cases hcm
  have hmem : Char.ofNat (0 % 256)
      ∈ (splitListOn '\n' (latin1Decode (utf16Encode text))).headD [] := by
    rw [hchars]
    exact splitListOn_head_mem '\n' (Char.ofNat (0 % 256)) (by decide)
      [Char.ofNat (255 % 256), Char.ofNat (254 % 256), Char.ofNat (c0.toNat % 256)] hpre
      (latin1Decode ((tl.map utf16EncodeChar).foldr (· ++ ·) []))
  have hl : headerCheck "check" (String.mk (latin1Decode (utf16Encode text)))
      = Except.error (PyExc.otherError "line contains NUL") := by
    apply headerCheck_nul
    · rw [hchars]
      exact mk_cons_beq_empty _ _
    · unfold strSplit
      rw [show (String.mk (latin1Decode (utf16Encode text))).data
          = latin1Decode (utf16Encode text) from rfl]
      cases hsp : splitListOn '\n' (latin1Decode (utf16Encode text)) with
      | nil => exact absurd hsp (splitListOn_ne_nil _ _)
      | cons g gs =>
        rw [List.map_cons]
        simp only [List.headD_cons]
        rw [List.any_eq_true]
        refine ⟨Char.ofNat (0 % 256), ?_, by decide⟩
        rw [hsp] at hmem
        simpa using hmem
  have hflat : ∀ b ∈ (tl.map utf16EncodeChar).foldr (· ++ ·) [], b < 128 :=
    utf16_flat_bytes_lt tl
      (fun c hcm => hascii c (by rw [htd]; exact List.mem_cons_of_mem c0 hcm))
  have hrange : ∀ b ∈ utf16Encode text, b < 128 ∨ (160 ≤ b ∧ b < 256) := by
    intro b hb
    rw [hbytes] at hb
    rcases List.mem_cons.mp hb with rfl | hb
    · right; omega
    rcases List.mem_cons.mp hb with rfl | hb
    · right; omega
    rcases List.mem_cons.mp hb with rfl | hb
    · left; omega
    rcases List.mem_cons.mp hb with rfl | hb
    · left; omega
    · left; exact hflat b hb
  have hb1 : decodeBytes Enc.utf8 (utf16Encode text) = none :=
    utf8Decode_ff (254 :: (text.data.map utf16EncodeChar).foldr (· ++ ·) [])
  have hcp : decodeBytes Enc.cp1252 (utf16Encode text)
      = some (latin1Decode (utf16Encode text)) :=
    cp1252Decode_eq_latin1 (utf16Encode text) hrange
  have hu : decodeBytes Enc.utf16 (utf16Encode text) = some text.data :=
    utf16_roundtrip_ascii text hascii
  have hloop16 : readCsvLoop "check" (utf16Encode text) encodings = Except.ok t :=
    readCsvLoop_utf16_check text t hb1 hl hcp hu hh hp
  have h8dec : decodeBytes Enc.utf8 (utf8Encode text) = some text.data := by
    show utf8Decode (utf8Encode text) = some text.data
    rw [show utf8Encode text = text.data.map Char.toNat
        from utf8Encode_flat_ascii text.data hascii]
    exact utf8Decode_ascii text.data hascii
  have hloop8 : readCsvLoop "check" (utf8Encode text) encodings = Except.ok t := by
    have h := readCsvLoop_utf8_ok "check" (utf8Encode text) text.data t h8dec hh hp
    rwa [if_neg (show ¬("check" = "keep_first") by decide)] at h
  have hsz8 : fileSize (mkCsvFile p8 (utf8Encode text)) ≠ 0 := by
    show (utf8Encode text).length ≠ 0
    rw [show utf8Encode text = text.data.map Char.toNat
        from utf8Encode_flat_ascii text.data hascii, List.length_map, htd]
    simp
  have hsz16 : fileSize (mkCsvFile p16 (utf16Encode text)) ≠ 0 := by
    show (utf16Encode text).length ≠ 0
    rw [hbytes]
    simp
  have hv8 := validate_csv_ok_of_loop (mkCsvFile p8 (utf8Encode text)) mb "check" t
    rfl hsz8 hlim8 hext8 hloop8 hnr
  have hv16 := validate_csv_ok_of_loop (mkCsvFile p16 (utf16Encode text)) mb "check" t
    rfl hsz16 hlim16 hext16 hloop16 hnr
  have hmd8 := assembleMeta_df
    (checkMixed { checkMixed (initLoader (mkCsvFile p8 (utf8Encode text)) mb) with
      df := some t }) t (by rw [checkMixed_df])
  have hmd16 := assembleMeta_df
    (checkMixed { checkMixed (initLoader (mkCsvFile p16 (utf16Encode text)) mb) with
      df := some t }) t (by rw [checkMixed_df])
  refine ⟨assembleMeta (checkMixed { checkMixed (initLoader (mkCsvFile p8 (utf8Encode text)) mb)
            with df := some t }),
          assembleMeta (checkMixed { checkMixed (initLoader (mkCsvFile p16 (utf16Encode text)) mb)
            with df := some t }),
          ?_, ?_, ?_, ?_, ?_⟩
  · rw [hv8]
  · rw [hv16]
  · rw [hmd8.2.2, hmd16.2.2]
  · rw [hmd8.1, hmd16.1]
  · rw [hmd8.2.1, hmd16.2.1]
/-- C7: corrected.  Writing the same ASCII table content in UTF-8, Latin-1
or Windows-1252 produces byte-identical files, so validation of those three
writings is literally one and the same run; and a UTF-16-written copy is
still recovered correctly under the check policy — UTF-8 rejects its
byte-order mark, and on the Latin-1 and Windows-1252 mis-decodings the
header line carries a NUL, which the csv reader rejects (the loop swallows
the error and moves on), so the UTF-16 codec is reached and the resulting
metadata has the same row count, column count and column names as the
UTF-8-written run.  The claim as stated fails under the other policies,
where no header check runs and the Latin-1 mis-decoding loads: see the
counterexample. -/
theorem c7_amended (p8 p16 : String) (mb : Nat) (text : String) (c0 : Char) (tl : List Char)
    (htd : text.data = c0 :: tl) (hc0 : c0 ≠ '\n')
    (hascii : ∀ c ∈ text.data, c.toNat < 128)
    (t : Table)
    (hh : headerCheck "check" text = Except.ok ())
    (hp : pdReadCsv text = Except.ok t) (hnr : t.nrows ≠ 0)
    (hext8 : extOf p8 = "csv") (hext16 : extOf p16 = "csv")
    (hlim8 : (utf8Encode text).length ≤ mb * 1024 * 1024)
    (hlim16 : (utf16Encode text).length ≤ mb * 1024 * 1024) :
    (encodeStr Enc.latin1 text = some (utf8Encode text)
      ∧ encodeStr Enc.cp1252 text = some (utf8Encode text))
    ∧ ∃ md8 md16 : Metadata,
        (validateAndLoad (initLoader (mkCsvFile p8 (utf8Encode text)) mb) "check").1
          = Except.ok md8
        ∧ (validateAndLoad (initLoader (mkCsvFile p16 (utf16Encode text)) mb) "check").1
          = Except.ok md16
        ∧ md8.rows = md16.rows ∧ md8.columns = md16.columns
        ∧ md8.column_names = md16.column_names := by
  constructor
  · exact ⟨optMap_latin1_ascii text.data hascii, optMap_cp1252_ascii text.data hascii⟩
  · exact validate_utf16_check_eq p8 p16 mb text c0 tl htd hc0 hascii t hh hp hnr
      hext8 hext16 hlim8 hlim16

/-- C7 witness: the content a,b with data row 1,2 of the repository test,
written in UTF-8 and in UTF-16, both validated under check. -/
theorem c7_amended_witness :
    (encodeStr Enc.latin1 "a,b\n1,2\n" = some (utf8Encode "a,b\n1,2\n")
      ∧ encodeStr Enc.cp1252 "a,b\n1,2\n" = some (utf8Encode "a,b\n1,2\n"))
    ∧ ∃ md8 md16 : Metadata,
        (validateAndLoad (initLoader (mkCsvFile "f.csv" (utf8Encode "a,b\n1,2\n")) 1) "check").1
          = Except.ok md8
        ∧ (validateAndLoad (initLoader (mkCsvFile "g.csv" (utf16Encode "a,b\n1,2\n")) 1)
            "check").1 = Except.ok md16
        ∧ md8.rows = md16.rows ∧ md8.columns = md16.columns
        ∧ md8.column_names = md16.column_names :=
  c7_amended "f.csv" "g.csv" 1 "a,b\n1,2\n" 'a' [',', 'b', '\n', '1', ',', '2', '\n']
    (by decide) (by decide) (by decide)
    { nrows := 1, cols := [("a", [PyVal.vInt 1]), ("b", [PyVal.vInt 2])] }
    (by decide) (by decide) (by decide) (by decide) (by decide) (by decide) (by decide)

/-- C7 counterexample: the same ASCII content a,b with data row 1,2 written
in UTF-8 versus UTF-16, validated under the rename policy.  No header check
runs under rename, so the Latin-1 mis-decoding of the UTF-16 bytes — the
first candidate that decodes at all — is parsed as the table, giving 2 rows
against the UTF-8-written run's 1 row; the claim says the row counts agree
for every candidate encoding used to write the file. -/
theorem c7_counterexample :
    resRows (validateAndLoad
        (initLoader (mkCsvFile "f.csv" (utf8Encode "a,b\n1,2\n")) 1) "rename") = some 1
    ∧ resRows (validateAndLoad
        (initLoader (mkCsvFile "g.csv" (utf16Encode "a,b\n1,2\n")) 1) "rename") = some 2
    ∧ (1 : Nat) ≠ 2 := by
  refine ⟨by decide, by decide, by decide⟩
